import Mathlib

/-!
Shallow embedding of the unified symmetric-cipher facade of atframe_utils
(`src/algorithm/crypto_cipher.cpp`).  External back-end primitives
(OpenSSL-EVP / mbedTLS / libsodium) are modelled as abstract parameter
structures; the session logic, registry and dispatch are translated from the
source.  The XXTEA primitive and a few constants whose definitions live in
headers outside the provided sources are modelled from the spec and marked as
such in their doc comments.
-/

namespace AtframeCrypto

/-- Error codes of `cipher::error_code_t` (spec section 7). -/
inductive errc where
  | OK
  | NOT_INITED
  | ALREADY_INITED
  | INVALID_PARAM
  | CIPHER_NOT_SUPPORT
  | CIPHER_DISABLED
  | CIPHER_OPERATION
  | CIPHER_OPERATION_SET_IV
  | MALLOC
  | MUST_CALL_AEAD_API
  | MUST_NOT_CALL_AEAD_API
  | LIBSODIUM_OPERATION
  | LIBSODIUM_OPERATION_TAG_LEN
  deriving DecidableEq, Repr

/-- Dispatch methods of `cipher_interface_method_t` (crypto_cipher.cpp lines 90-104). -/
inductive method_t where
  | EN_CIMT_INVALID
  | EN_CIMT_XXTEA
  | EN_CIMT_INNER
  | EN_CIMT_CIPHER
  | EN_CIMT_LIBSODIUM
  | EN_CIMT_LIBSODIUM_CHACHA20
  | EN_CIMT_LIBSODIUM_CHACHA20_IETF
  | EN_CIMT_LIBSODIUM_XCHACHA20
  | EN_CIMT_LIBSODIUM_SALSA20
  | EN_CIMT_LIBSODIUM_XSALSA20
  | EN_CIMT_LIBSODIUM_CHACHA20_POLY1305
  | EN_CIMT_LIBSODIUM_CHACHA20_POLY1305_IETF
  | EN_CIMT_LIBSODIUM_XCHACHA20_POLY1305_IETF
  deriving DecidableEq, Repr

/-- Numeric value of the C enum (needed for the comparison
`interface_->method >= EN_CIMT_CIPHER` in encrypt/decrypt). -/
def method_t.code : method_t → Nat
  | .EN_CIMT_INVALID => 0
  | .EN_CIMT_XXTEA => 1
  | .EN_CIMT_INNER => 2
  | .EN_CIMT_CIPHER => 3
  | .EN_CIMT_LIBSODIUM => 4
  | .EN_CIMT_LIBSODIUM_CHACHA20 => 5
  | .EN_CIMT_LIBSODIUM_CHACHA20_IETF => 6
  | .EN_CIMT_LIBSODIUM_XCHACHA20 => 7
  | .EN_CIMT_LIBSODIUM_SALSA20 => 8
  | .EN_CIMT_LIBSODIUM_XSALSA20 => 9
  | .EN_CIMT_LIBSODIUM_CHACHA20_POLY1305 => 10
  | .EN_CIMT_LIBSODIUM_CHACHA20_POLY1305_IETF => 11
  | .EN_CIMT_LIBSODIUM_XCHACHA20_POLY1305_IETF => 12

/-- True for the five `EN_CIMT_LIBSODIUM_*` stream-cipher methods. -/
def method_t.is_sodium_stream : method_t → Bool
  | .EN_CIMT_LIBSODIUM_CHACHA20 => true
  | .EN_CIMT_LIBSODIUM_CHACHA20_IETF => true
  | .EN_CIMT_LIBSODIUM_XCHACHA20 => true
  | .EN_CIMT_LIBSODIUM_SALSA20 => true
  | .EN_CIMT_LIBSODIUM_XSALSA20 => true
  | _ => false

/-- True for the three `EN_CIMT_LIBSODIUM_*POLY1305*` AEAD methods. -/
def method_t.is_sodium_aead : method_t → Bool
  | .EN_CIMT_LIBSODIUM_CHACHA20_POLY1305 => true
  | .EN_CIMT_LIBSODIUM_CHACHA20_POLY1305_IETF => true
  | .EN_CIMT_LIBSODIUM_XCHACHA20_POLY1305_IETF => true
  | _ => false

/-- Flag bits of `cipher_interface_flags_t` (crypto_cipher.cpp lines 106-114). -/
def EN_CIFT_NONE : Nat := 0

/-- Flag: should not call finish after update. -/
def EN_CIFT_NO_FINISH : Nat := 0x0001

/-- Flag: is an AEAD cipher. -/
def EN_CIFT_AEAD : Nat := 0x0010

/-- Flag: can have a variable iv length. -/
def EN_CIFT_VARIABLE_IV_LEN : Nat := 0x0020

/-- Flag: call update to set length before update. -/
def EN_CIFT_AEAD_SET_LENGTH_BEFORE : Nat := 0x0040

/-- Flag: set no padding when decrypting. -/
def EN_CIFT_DECRYPT_NO_PADDING : Nat := 0x0100

/-- Flag: set no padding when encrypting. -/
def EN_CIFT_ENCRYPT_NO_PADDING : Nat := 0x0200

/-- Bit test `0 != (flags & f)` as used throughout the source. -/
def has_flag (flags f : Nat) : Bool := decide (flags &&& f ≠ 0)

/-- One registry entry, `cipher_interface_info_t` (crypto_cipher.cpp lines 116-122).
The terminating `{NULL, ...}` sentinel of the C array is represented by the end
of the Lean list. -/
structure cipher_interface_info_t where
  name : String
  method : method_t
  openssl_name : Option String
  mbedtls_name : String
  flags : Nat
  deriving DecidableEq, Repr

/-- Preprocessor configuration selecting which registry entries are compiled in
(the `#if` blocks inside `details::supported_ciphers`). -/
structure build_config_t where
  use_chacha20_with_cipher : Bool
  use_chacha20_poly1305_with_cipher : Bool
  use_libsodium : Bool
  has_xchacha20 : Bool
  has_xsalsa20 : Bool
  has_xchacha20_poly1305 : Bool
  deriving DecidableEq, Repr

/-- The static registry `details::supported_ciphers`
(crypto_cipher.cpp lines 132-202), in source order, with each `#if` block
guarded by the corresponding build-configuration flag. -/
def supported_ciphers (cfg : build_config_t) : List cipher_interface_info_t :=
  [ ⟨"xxtea", .EN_CIMT_XXTEA, none, "xxtea", EN_CIFT_NONE⟩,
    ⟨"rc4", .EN_CIMT_CIPHER, none, "ARC4-128", EN_CIFT_NONE⟩,
    ⟨"aes-128-cfb", .EN_CIMT_CIPHER, none, "AES-128-CFB128", EN_CIFT_NONE⟩,
    ⟨"aes-192-cfb", .EN_CIMT_CIPHER, none, "AES-192-CFB128", EN_CIFT_NONE⟩,
    ⟨"aes-256-cfb", .EN_CIMT_CIPHER, none, "AES-256-CFB128", EN_CIFT_NONE⟩,
    ⟨"aes-128-ctr", .EN_CIMT_CIPHER, none, "AES-128-CTR", EN_CIFT_NONE⟩,
    ⟨"aes-192-ctr", .EN_CIMT_CIPHER, none, "AES-192-CTR", EN_CIFT_NONE⟩,
    ⟨"aes-256-ctr", .EN_CIMT_CIPHER, none, "AES-256-CTR", EN_CIFT_NONE⟩,
    ⟨"aes-128-ecb", .EN_CIMT_CIPHER, none, "AES-128-ECB",
      EN_CIFT_ENCRYPT_NO_PADDING ||| EN_CIFT_DECRYPT_NO_PADDING⟩,
    ⟨"aes-192-ecb", .EN_CIMT_CIPHER, none, "AES-192-ECB",
      EN_CIFT_ENCRYPT_NO_PADDING ||| EN_CIFT_DECRYPT_NO_PADDING⟩,
    ⟨"aes-256-ecb", .EN_CIMT_CIPHER, none, "AES-256-ECB",
      EN_CIFT_ENCRYPT_NO_PADDING ||| EN_CIFT_DECRYPT_NO_PADDING⟩,
    ⟨"aes-128-cbc", .EN_CIMT_CIPHER, none, "AES-128-CBC",
      EN_CIFT_ENCRYPT_NO_PADDING ||| EN_CIFT_DECRYPT_NO_PADDING⟩,
    ⟨"aes-192-cbc", .EN_CIMT_CIPHER, none, "AES-192-CBC",
      EN_CIFT_ENCRYPT_NO_PADDING ||| EN_CIFT_DECRYPT_NO_PADDING⟩,
    ⟨"aes-256-cbc", .EN_CIMT_CIPHER, none, "AES-256-CBC",
      EN_CIFT_ENCRYPT_NO_PADDING ||| EN_CIFT_DECRYPT_NO_PADDING⟩,
    ⟨"des-ecb", .EN_CIMT_CIPHER, none, "DES-ECB",
      EN_CIFT_ENCRYPT_NO_PADDING ||| EN_CIFT_DECRYPT_NO_PADDING⟩,
    ⟨"des-cbc", .EN_CIMT_CIPHER, none, "DES-CBC",
      EN_CIFT_ENCRYPT_NO_PADDING ||| EN_CIFT_DECRYPT_NO_PADDING⟩,
    ⟨"des-ede", .EN_CIMT_CIPHER, none, "DES-EDE-ECB",
      EN_CIFT_ENCRYPT_NO_PADDING ||| EN_CIFT_DECRYPT_NO_PADDING⟩,
    ⟨"des-ede-cbc", .EN_CIMT_CIPHER, none, "DES-EDE-CBC",
      EN_CIFT_ENCRYPT_NO_PADDING ||| EN_CIFT_DECRYPT_NO_PADDING⟩,
    ⟨"des-ede3", .EN_CIMT_CIPHER, none, "DES-EDE3-ECB",
      EN_CIFT_ENCRYPT_NO_PADDING ||| EN_CIFT_DECRYPT_NO_PADDING⟩,
    ⟨"des-ede3-cbc", .EN_CIMT_CIPHER, none, "DES-EDE3-CBC",
      EN_CIFT_ENCRYPT_NO_PADDING ||| EN_CIFT_DECRYPT_NO_PADDING⟩,
    ⟨"bf-cbc", .EN_CIMT_CIPHER, none, "BLOWFISH-CBC",
      EN_CIFT_ENCRYPT_NO_PADDING ||| EN_CIFT_DECRYPT_NO_PADDING⟩,
    ⟨"bf-cfb", .EN_CIMT_CIPHER, none, "BLOWFISH-CFB64", EN_CIFT_NONE⟩,
    ⟨"camellia-128-cfb", .EN_CIMT_CIPHER, none, "CAMELLIA-128-CFB128", EN_CIFT_NONE⟩,
    ⟨"camellia-192-cfb", .EN_CIMT_CIPHER, none, "CAMELLIA-192-CFB128", EN_CIFT_NONE⟩,
    ⟨"camellia-256-cfb", .EN_CIMT_CIPHER, none, "CAMELLIA-256-CFB128", EN_CIFT_NONE⟩ ]
  ++ (if cfg.use_chacha20_with_cipher then
      [ ⟨"chacha20", .EN_CIMT_CIPHER, none, "CHACHA20", EN_CIFT_NONE⟩ ] else [])
  ++ (if cfg.use_libsodium then
      [ ⟨"chacha20", .EN_CIMT_LIBSODIUM_CHACHA20, none, "CHACHA20", EN_CIFT_NONE⟩,
        ⟨"chacha20-ietf", .EN_CIMT_LIBSODIUM_CHACHA20_IETF, none, "CHACHA20-IETF", EN_CIFT_NONE⟩ ]
      ++ (if cfg.has_xchacha20 then
          [ ⟨"xchacha20", .EN_CIMT_LIBSODIUM_XCHACHA20, none, "XCHACHA20", EN_CIFT_NONE⟩ ] else [])
      ++ [ ⟨"salsa20", .EN_CIMT_LIBSODIUM_SALSA20, none, "SALSA20", EN_CIFT_NONE⟩ ]
      ++ (if cfg.has_xsalsa20 then
          [ ⟨"xsalsa20", .EN_CIMT_LIBSODIUM_XSALSA20, none, "XSALSA20", EN_CIFT_NONE⟩ ] else [])
      else [])
  ++ [ ⟨"aes-128-gcm", .EN_CIMT_CIPHER, none, "AES-128-GCM",
        EN_CIFT_AEAD ||| EN_CIFT_VARIABLE_IV_LEN⟩,
       ⟨"aes-192-gcm", .EN_CIMT_CIPHER, none, "AES-192-GCM",
        EN_CIFT_AEAD ||| EN_CIFT_VARIABLE_IV_LEN⟩,
       ⟨"aes-256-gcm", .EN_CIMT_CIPHER, none, "AES-256-GCM",
        EN_CIFT_AEAD ||| EN_CIFT_VARIABLE_IV_LEN⟩ ]
  ++ (if cfg.use_chacha20_poly1305_with_cipher then
      [ ⟨"chacha20-poly1305-ietf", .EN_CIMT_CIPHER, some "chacha20-poly1305",
         "CHACHA20-POLY1305", EN_CIFT_AEAD ||| EN_CIFT_VARIABLE_IV_LEN⟩ ] else [])
  ++ (if cfg.use_libsodium then
      [ ⟨"chacha20-poly1305", .EN_CIMT_LIBSODIUM_CHACHA20_POLY1305, none,
         "CHACHA20-POLY1305", EN_CIFT_AEAD⟩,
        ⟨"chacha20-poly1305-ietf", .EN_CIMT_LIBSODIUM_CHACHA20_POLY1305_IETF, none,
         "CHACHA20-POLY1305-IETF", EN_CIFT_AEAD⟩ ]
      ++ (if cfg.has_xchacha20_poly1305 then
          [ ⟨"xchacha20-poly1305-ietf", .EN_CIMT_LIBSODIUM_XCHACHA20_POLY1305_IETF, none,
             "XCHACHA20-POLY1305-IETF", EN_CIFT_AEAD⟩ ] else [])
      else [])

/-- ASCII lower-casing of one character, as `tolower` does for the ASCII
letters compared by `strcasecmp`. -/
def ascii_lower (c : Char) : Char :=
  if 'A' ≤ c ∧ c ≤ 'Z' then Char.ofNat (c.toNat + 32) else c

/-- Equality under `UTIL_STRFUNC_STRCASE_CMP` (case-insensitive `strcmp`). -/
def strcase_eq (a b : String) : Bool :=
  decide (a.data.map ascii_lower = b.data.map ascii_lower)

/-- Name lookup `details::get_cipher_interface_by_name`
(crypto_cipher.cpp lines 204-216): `none` models the NULL `const char*`;
the linear scan stopping at the first case-insensitive match is `List.find?`. -/
def get_cipher_interface_by_name (cfg : build_config_t) (name : Option String) :
    Option cipher_interface_info_t :=
  match name with
  | none => none
  | some n => (supported_ciphers cfg).find? (fun i => strcase_eq n i.name)

/-! ### XXTEA primitive

The XXTEA implementation (`util::xxtea_setup` / `util::xxtea_encrypt` /
`util::xxtea_decrypt`) lives in a source file that is not part of the provided
sources; it is modelled from the spec (section 4.4): standard XXTEA rounds,
128-bit key as four 32-bit words, 4-byte blocks, zero-padding of the input to a
word boundary, output length reported through the out-parameter. -/

/-- 2^32, the modulus of all uint32 arithmetic in XXTEA. -/
def M32 : Nat := 4294967296

/-- The XXTEA round-key constant DELTA = 0x9e3779b9. -/
def XXTEA_DELTA : Nat := 0x9e3779b9

/-- uint32 subtraction `a - b` as Nat arithmetic mod 2^32. -/
def msub32 (a b : Nat) : Nat := (a + (M32 - b % M32)) % M32

/-- Modelled from the spec: the standard XXTEA `MX` mixing term
`((z>>5 ^ y<<2) + (y>>3 ^ z<<4)) ^ ((sum^y) + (key[(p&3)^e] ^ z))`
with every uint32 operation taken mod 2^32. -/
def xxtea_mx (key : List Nat) (sum e p y z : Nat) : Nat :=
  ((((z >>> 5) ^^^ ((y <<< 2) % M32)) + ((y >>> 3) ^^^ ((z <<< 4) % M32))) % M32) ^^^
    (((sum ^^^ y) + ((key.getD ((p &&& 3) ^^^ e) 0) ^^^ z)) % M32)

/-- Modelled from the spec: the main loop of one XXTEA encode round, processing
words `v[p..n-2]` left to right.  `z` carries the previously updated word,
`yl` is the lookahead for the final processed word (`v[n-1]`). -/
def xxtea_enc_main (key : List Nat) (sum e : Nat) : Nat → Nat → List Nat → Nat → Nat × List Nat
  | _, z, [], _ => (z, [])
  | p, z, [x], yl =>
      let w := (x + xxtea_mx key sum e p yl z) % M32
      (w, [w])
  | p, z, x :: y :: rest, yl =>
      let w := (x + xxtea_mx key sum e p y z) % M32
      let t := xxtea_enc_main key sum e (p + 1) w (y :: rest) yl
      (t.1, w :: t.2)

/-- Modelled from the spec: inverse of `xxtea_enc_main`, decoding words right
to left (the deepest recursion is decoded first, as in the C decode loop). -/
def xxtea_dec_main (key : List Nat) (sum e : Nat) : Nat → Nat → List Nat → Nat → List Nat
  | _, _, [], _ => []
  | p, z, [w], yl => [msub32 w (xxtea_mx key sum e p yl z)]
  | p, z, w :: w2 :: rest, yl =>
      let t := xxtea_dec_main key sum e (p + 1) w (w2 :: rest) yl
      msub32 w (xxtea_mx key sum e p (t.headD 0) z) :: t

/-- Modelled from the spec: one full XXTEA encode round at round sum `sum`:
the main loop over `v[0..n-2]` followed by the wrap-around update of
`v[n-1]` with `y = v'[0]`. -/
def xxtea_enc_round (key : List Nat) (sum : Nat) (v : List Nat) : List Nat :=
  if v.length < 2 then v
  else
    let e := (sum >>> 2) &&& 3
    let z0 := v.getLastD 0
    let t := xxtea_enc_main key sum e 0 z0 v.dropLast z0
    t.2 ++ [(z0 + xxtea_mx key sum e (v.length - 1) (t.2.headD 0) t.1) % M32]

/-- Modelled from the spec: one full XXTEA decode round, inverting
`xxtea_enc_round`: first undo the wrap-around update of `v[n-1]`, then undo
the main loop right to left. -/
def xxtea_dec_round (key : List Nat) (sum : Nat) (w : List Nat) : List Nat :=
  if w.length < 2 then w
  else
    let e := (sum >>> 2) &&& 3
    let ws := w.dropLast
    let lv := msub32 (w.getLastD 0) (xxtea_mx key sum e (w.length - 1) (ws.headD 0) (ws.getLastD 0))
    xxtea_dec_main key sum e 0 lv ws lv ++ [lv]

/-- Encode rounds with ascending uint32 round sums DELTA, 2*DELTA, ... -/
def xxtea_enc_iter (key : List Nat) : Nat → List Nat → List Nat
  | 0, v => v
  | q + 1, v => xxtea_enc_round key ((q + 1) * XXTEA_DELTA % M32) (xxtea_enc_iter key q v)

/-- Decode rounds with descending uint32 round sums rounds*DELTA, ..., DELTA. -/
def xxtea_dec_iter (key : List Nat) : Nat → List Nat → List Nat
  | 0, w => w
  | q + 1, w => xxtea_dec_iter key q (xxtea_dec_round key ((q + 1) * XXTEA_DELTA % M32) w)

/-- Modelled from the spec: the standard `btea` encode with
`rounds = 6 + 52/n`; word vectors shorter than 2 are left unchanged. -/
def btea_enc (key v : List Nat) : List Nat := xxtea_enc_iter key (6 + 52 / v.length) v

/-- Modelled from the spec: the standard `btea` decode with
`rounds = 6 + 52/n`. -/
def btea_dec (key w : List Nat) : List Nat := xxtea_dec_iter key (6 + 52 / w.length) w

/-- Little-endian grouping of bytes (unsigned char, hence reduced mod 256)
into 32-bit words; a trailing partial group cannot occur because inputs are
padded to a word boundary first. -/
def bytes_to_words32 : List Nat → List Nat
  | b0 :: b1 :: b2 :: b3 :: rest =>
      (b0 % 256 + (b1 % 256) * 256 + (b2 % 256) * 65536 + (b3 % 256) * 16777216) ::
        bytes_to_words32 rest
  | _ => []

/-- Little-endian serialization of 32-bit words back to bytes. -/
def words_to_bytes32 : List Nat → List Nat
  | [] => []
  | w :: rest =>
      w % 256 :: w / 256 % 256 :: w / 65536 % 256 :: w / 16777216 % 256 :: words_to_bytes32 rest

/-- Zero-padding of a byte string to a multiple of the 4-byte XXTEA block. -/
def xxtea_pad (p : List Nat) : List Nat := p ++ List.replicate ((4 - p.length % 4) % 4) 0

/-- Modelled from the spec: `util::xxtea_setup` turns the 16-byte secret into
the four 32-bit little-endian key words. -/
def xxtea_setup_key (secret : List Nat) : List Nat := bytes_to_words32 secret

/-- Modelled from the spec: `util::xxtea_encrypt` pads the input to a word
boundary, runs the XXTEA rounds over the whole buffer, and reports the padded
length through the output-length out-parameter. -/
def xxtea_encrypt_bytes (key p : List Nat) : List Nat :=
  words_to_bytes32 (btea_enc key (bytes_to_words32 (xxtea_pad p)))

/-- Modelled from the spec: `util::xxtea_decrypt`, the inverse transform. -/
def xxtea_decrypt_bytes (key c : List Nat) : List Nat :=
  words_to_bytes32 (btea_dec key (bytes_to_words32 (xxtea_pad c)))

/-! ### Back-end abstractions

The three external back-ends are not part of this repository; their primitives
are abstract parameters.  The libsodium stream XOR primitives are modelled as
XOR against an abstract keystream determined by (method, key, nonce, initial
counter), which is the shape the spec gives them ("single-call
XOR-combiners"). -/

/-- Which generic-cipher back-end the translation unit was compiled against
(`CRYPTO_USE_OPENSSL`-family versus `CRYPTO_USE_MBEDTLS`). -/
inductive flavor_t where
  | evp
  | mbedtls
  deriving DecidableEq, Repr

/-- Which step of the compressed EVP one-shot call sequence failed: the
iv-binding calls (reported as `CIPHER_OPERATION_SET_IV`) or any later call
(reported as `CIPHER_OPERATION`). -/
inductive evp_err_t where
  | err_set_iv
  | err_op
  deriving DecidableEq, Repr

/-- Arguments the session hands to the EVP-style non-AEAD one-shot:
context key, the iv to bind (`none` when the session iv buffer is empty, in
which case no `EVP_CipherInit_ex` iv call is made), the two flag-driven
choices, and the input bytes. -/
structure evp_crypt_args where
  key : Option (List Nat)
  iv : Option (List Nat)
  no_padding : Bool
  no_finish : Bool
  input : List Nat
  deriving DecidableEq, Repr

/-- Arguments the session hands to the EVP-style AEAD one-shot. `tag_len` is
the requested tag length on encrypt; `tag` is the tag bound via
`EVP_CTRL_AEAD_SET_TAG` on decrypt (`none` when NULL or empty). -/
structure evp_aead_args where
  key : Option (List Nat)
  iv : Option (List Nat)
  var_iv_len : Bool
  set_length_before : Bool
  ad : Option (List Nat)
  no_padding : Bool
  no_finish : Bool
  input : List Nat
  tag_len : Nat
  tag : Option (List Nat)
  deriving DecidableEq, Repr

/-- Abstract generic-cipher back-end (OpenSSL-EVP or mbedTLS).  The multi-call
EVP sequences of the source are compressed into one-shot functions of exactly
the data the session passes across the boundary; the scalar queries mirror
`EVP_CIPHER_CTX_iv_length` / `..._key_length` / `..._block_size` and their
mbedTLS counterparts. -/
structure generic_backend_t where
  resolves : String → Bool
  iv_length : Nat
  key_bits : Nat
  block_size : Nat
  is_cbc : Bool
  set_padding_res : Int
  setkey_res : Int
  evp_setkey_ok : Bool
  evp_errno : Int
  enc_oneshot : evp_crypt_args → Except (evp_err_t × Int) (List Nat)
  dec_oneshot : evp_crypt_args → Except (evp_err_t × Int) (List Nat)
  aead_enc_oneshot : evp_aead_args → Except (evp_err_t × Int) (List Nat × List Nat)
  aead_dec_oneshot : evp_aead_args → Except (evp_err_t × Int) (List Nat)
  mbt_crypt : Bool → Option (List Nat × Nat) → List Nat → List Nat → Int × List Nat
  mbt_auth_encrypt :
    Option (List Nat × Nat) → List Nat → List Nat → List Nat → Nat → Int × List Nat × List Nat
  mbt_auth_decrypt :
    Option (List Nat × Nat) → List Nat → List Nat → List Nat → List Nat → Int × List Nat

/-- Abstract libsodium back-end: `ks m key nonce ic i` is byte `i` of the
keystream of stream method `m`; `stream_res` the return value of the
`crypto_stream_*_xor_ic` call; `aead_enc`/`aead_dec` the detached AEAD
primitives (result code, ciphertext/plaintext, and 16-byte tag on encrypt). -/
structure sodium_backend_t where
  ks : method_t → List Nat → List Nat → Nat → Nat → Nat
  stream_res : method_t → Int
  aead_enc : method_t → List Nat → List Nat → List Nat → List Nat → Int × List Nat × List Nat
  aead_dec : method_t → List Nat → List Nat → List Nat → List Nat → List Nat → Int × List Nat

/-- `libsodium_get_block` (crypto_cipher.cpp lines 19-21): little-endian
32-bit decode of four bytes. -/
def libsodium_get_block (p : List Nat) : Nat :=
  p.getD 0 0 ||| (p.getD 1 0 <<< 8) ||| (p.getD 2 0 <<< 16) ||| (p.getD 3 0 <<< 24)

/-- `libsodium_get_counter` (crypto_cipher.cpp lines 23-27): the 64-bit
counter assembled from the low 32-bit word at iv[0..4] and the high word at
iv[4..8]. -/
def libsodium_get_counter (iv : List Nat) : Nat :=
  (libsodium_get_block (iv.drop 4) <<< 32) ||| libsodium_get_block iv

/-- XOR of a byte list against keystream bytes `f i`, starting at index `i`:
the effect of `crypto_stream_*_xor_ic` on the output buffer. -/
def xor_ks (f : Nat → Nat) : Nat → List Nat → List Nat
  | _, [] => []
  | i, b :: rest => (b ^^^ f i) :: xor_ks f (i + 1) rest

/-- `LIBSODIUM_COUNTER_SIZE` = sizeof(uint64_t) = 8. -/
def LIBSODIUM_COUNTER_SIZE : Nat := 8

/-- libsodium nonce size constants (fixed public constants of libsodium). -/
def chacha20_NONCEBYTES : Nat := 8

/-- libsodium crypto_stream_chacha20_ietf_NONCEBYTES. -/
def chacha20_ietf_NONCEBYTES : Nat := 12

/-- libsodium crypto_stream_xchacha20_NONCEBYTES. -/
def xchacha20_NONCEBYTES : Nat := 24

/-- libsodium crypto_stream_salsa20_NONCEBYTES. -/
def salsa20_NONCEBYTES : Nat := 8

/-- libsodium crypto_stream_xsalsa20_NONCEBYTES. -/
def xsalsa20_NONCEBYTES : Nat := 24

/-- libsodium crypto_aead_chacha20poly1305_NPUBBYTES. -/
def chacha20poly1305_NPUBBYTES : Nat := 8

/-- libsodium crypto_aead_chacha20poly1305_IETF_NPUBBYTES. -/
def chacha20poly1305_IETF_NPUBBYTES : Nat := 12

/-- libsodium crypto_aead_xchacha20poly1305_ietf_NPUBBYTES. -/
def xchacha20poly1305_ietf_NPUBBYTES : Nat := 24

/-- libsodium crypto_aead_*_ABYTES: all three AEAD variants use 16-byte tags. -/
def sodium_ABYTES : Nat := 16

/-- Modelled from the spec: capacity of the session key scratch buffer
`libsodium_context_.key` (declared in a header outside the provided sources);
the spec says it holds the largest supported stream/AEAD key, and every
`crypto_*_KEYBYTES` above is 32. -/
def libsodium_key_capacity : Nat := 32

/-! ### Cipher session -/

/-- Back-end context handle held by the session for one direction.  For the
EVP flavor it records the key bound by `EVP_CipherInit_ex`; for mbedTLS the
key bytes and bit length given to `mbedtls_cipher_setkey`. -/
structure generic_ctx_t where
  key : Option (List Nat)
  bits : Nat
  deriving DecidableEq, Repr

/-- Mutable state of a `cipher` object: the bound registry entry, the last
back-end error number, the iv buffer, the XXTEA key words, the libsodium key
buffer, the per-direction back-end contexts, and the resolved back-end cipher
name `cipher_kt_`. -/
structure cipher_state where
  interface_ : Option cipher_interface_info_t
  last_errorno_ : Int
  iv_ : List Nat
  xxtea_key : List Nat
  libsodium_key : List Nat
  enc_ctx : Option generic_ctx_t
  dec_ctx : Option generic_ctx_t
  cipher_kt_ : Option String
  deriving DecidableEq, Repr

/-- A freshly constructed session (`cipher::cipher()`). -/
def empty_cipher : cipher_state :=
  { interface_ := none, last_errorno_ := 0, iv_ := [], xxtea_key := [],
    libsodium_key := [], enc_ctx := none, dec_ctx := none, cipher_kt_ := none }

/-- `details::setup_errorno`: store the back-end error number and forward the
return code. -/
def setup_errorno (s : cipher_state) (err : Int) (ret : errc) : errc × cipher_state :=
  (ret, { s with last_errorno_ := err })

/-- Mode bits of `cipher::mode_t`.  Modelled from the spec (the header with
the enum is outside the provided sources): a two-bit mask of ENCRYPT and
DECRYPT. -/
def EN_CMODE_ENCRYPT : Nat := 1

/-- Mode bit for the decrypt direction. -/
def EN_CMODE_DECRYPT : Nat := 2

/-- `cipher::is_aead`. -/
def is_aead (s : cipher_state) : Bool :=
  match s.interface_ with
  | none => false
  | some i => has_flag i.flags EN_CIFT_AEAD

/-- `cipher::get_iv_size`: 0 for xxtea and missing contexts, the back-end
context iv length for CIPHER, counter+nonce for sodium streams, NPUBBYTES for
sodium AEAD. -/
def get_iv_size (b : generic_backend_t) (s : cipher_state) : Nat :=
  match s.interface_ with
  | none => 0
  | some i =>
    match i.method with
    | .EN_CIMT_INVALID => 0
    | .EN_CIMT_XXTEA => 0
    | .EN_CIMT_CIPHER => if s.enc_ctx.isSome || s.dec_ctx.isSome then b.iv_length else 0
    | .EN_CIMT_LIBSODIUM_CHACHA20 => LIBSODIUM_COUNTER_SIZE + chacha20_NONCEBYTES
    | .EN_CIMT_LIBSODIUM_CHACHA20_IETF => LIBSODIUM_COUNTER_SIZE + chacha20_ietf_NONCEBYTES
    | .EN_CIMT_LIBSODIUM_XCHACHA20 => LIBSODIUM_COUNTER_SIZE + xchacha20_NONCEBYTES
    | .EN_CIMT_LIBSODIUM_SALSA20 => LIBSODIUM_COUNTER_SIZE + salsa20_NONCEBYTES
    | .EN_CIMT_LIBSODIUM_XSALSA20 => LIBSODIUM_COUNTER_SIZE + xsalsa20_NONCEBYTES
    | .EN_CIMT_LIBSODIUM_CHACHA20_POLY1305 => chacha20poly1305_NPUBBYTES
    | .EN_CIMT_LIBSODIUM_CHACHA20_POLY1305_IETF => chacha20poly1305_IETF_NPUBBYTES
    | .EN_CIMT_LIBSODIUM_XCHACHA20_POLY1305_IETF => xchacha20poly1305_ietf_NPUBBYTES
    | _ => 0

/-- `cipher::get_key_bits`: 128 for xxtea, back-end key bits for CIPHER with a
context, 256 (`crypto_*_KEYBYTES * 8`) for all sodium methods. -/
def get_key_bits (b : generic_backend_t) (s : cipher_state) : Nat :=
  match s.interface_ with
  | none => 0
  | some i =>
    match i.method with
    | .EN_CIMT_INVALID => 0
    | .EN_CIMT_XXTEA => 128
    | .EN_CIMT_CIPHER => if s.enc_ctx.isSome || s.dec_ctx.isSome then b.key_bits else 0
    | .EN_CIMT_LIBSODIUM_CHACHA20 | .EN_CIMT_LIBSODIUM_CHACHA20_IETF
    | .EN_CIMT_LIBSODIUM_XCHACHA20 | .EN_CIMT_LIBSODIUM_SALSA20
    | .EN_CIMT_LIBSODIUM_XSALSA20 | .EN_CIMT_LIBSODIUM_CHACHA20_POLY1305
    | .EN_CIMT_LIBSODIUM_CHACHA20_POLY1305_IETF
    | .EN_CIMT_LIBSODIUM_XCHACHA20_POLY1305_IETF => 256
    | _ => 0

/-- `cipher::get_block_size`: 4 for xxtea, the back-end context block size for
CIPHER with a context, 1 for every sodium method. -/
def get_block_size (b : generic_backend_t) (s : cipher_state) : Nat :=
  match s.interface_ with
  | none => 0
  | some i =>
    match i.method with
    | .EN_CIMT_INVALID => 0
    | .EN_CIMT_XXTEA => 4
    | .EN_CIMT_CIPHER => if s.enc_ctx.isSome || s.dec_ctx.isSome then b.block_size else 0
    | .EN_CIMT_LIBSODIUM_CHACHA20 | .EN_CIMT_LIBSODIUM_CHACHA20_IETF
    | .EN_CIMT_LIBSODIUM_XCHACHA20 | .EN_CIMT_LIBSODIUM_SALSA20
    | .EN_CIMT_LIBSODIUM_XSALSA20 | .EN_CIMT_LIBSODIUM_CHACHA20_POLY1305
    | .EN_CIMT_LIBSODIUM_CHACHA20_POLY1305_IETF
    | .EN_CIMT_LIBSODIUM_XCHACHA20_POLY1305_IETF => 1
    | _ => 0

/-- `cipher::set_key` (crypto_cipher.cpp lines 639-709).  XXTEA: copy the key
into a zeroed 16-byte secret (at most 16 bytes, at most `key_bitlen/8`) and
derive the key words.  CIPHER/EVP: reject keys shorter than the context key
length, then bind on both contexts.  CIPHER/mbedTLS: hand the key and bit
length straight to `mbedtls_cipher_setkey`.  Sodium: copy at most
`min(key_bitlen/8, 32)` bytes into the key buffer, always OK. -/
def set_key (fl : flavor_t) (b : generic_backend_t) (s : cipher_state)
    (key : List Nat) (key_bitlen : Nat) : errc × cipher_state :=
  match s.interface_ with
  | none => setup_errorno s 0 .NOT_INITED
  | some i =>
    match i.method with
    | .EN_CIMT_INVALID => setup_errorno s (-1) .NOT_INITED
    | .EN_CIMT_XXTEA =>
        let n := if key_bitlen ≥ 16 * 8 then 16 else key_bitlen / 8
        let kb := key.take n
        let secret := kb ++ List.replicate (16 - kb.length) 0
        setup_errorno { s with xxtea_key := xxtea_setup_key secret } 0 .OK
    | .EN_CIMT_CIPHER =>
        match fl with
        | .evp =>
          if get_key_bits b s > key_bitlen then setup_errorno s (-1) .INVALID_PARAM
          else
            let keylen := b.key_bits / 8
            let s1 :=
              { s with
                enc_ctx := s.enc_ctx.map fun c =>
                  if b.evp_setkey_ok then { c with key := some (key.take keylen), bits := b.key_bits } else c,
                dec_ctx := s.dec_ctx.map fun c =>
                  if b.evp_setkey_ok then { c with key := some (key.take keylen), bits := b.key_bits } else c }
            let res : Int :=
              if (s.enc_ctx.isSome || s.dec_ctx.isSome) && !b.evp_setkey_ok then b.evp_errno else 0
            if res ≠ 0 then setup_errorno s1 res .CIPHER_OPERATION
            else setup_errorno s1 res .OK
        | .mbedtls =>
            let s1 :=
              { s with
                enc_ctx := s.enc_ctx.map fun c =>
                  if b.setkey_res = 0 then { c with key := some (key.take (key_bitlen / 8)), bits := key_bitlen } else c,
                dec_ctx := s.dec_ctx.map fun c =>
                  if b.setkey_res = 0 then { c with key := some (key.take (key_bitlen / 8)), bits := key_bitlen } else c }
            let res : Int := if s.enc_ctx.isSome || s.dec_ctx.isSome then b.setkey_res else 0
            if res ≠ 0 then setup_errorno s1 res .CIPHER_OPERATION
            else setup_errorno s1 res .OK
    | .EN_CIMT_LIBSODIUM_CHACHA20 | .EN_CIMT_LIBSODIUM_CHACHA20_IETF
    | .EN_CIMT_LIBSODIUM_XCHACHA20 | .EN_CIMT_LIBSODIUM_SALSA20
    | .EN_CIMT_LIBSODIUM_XSALSA20 | .EN_CIMT_LIBSODIUM_CHACHA20_POLY1305
    | .EN_CIMT_LIBSODIUM_CHACHA20_POLY1305_IETF
    | .EN_CIMT_LIBSODIUM_XCHACHA20_POLY1305_IETF =>
        let n := if key_bitlen ≥ libsodium_key_capacity * 8 then libsodium_key_capacity
                 else key_bitlen / 8
        let kb := key.take n
        setup_errorno { s with libsodium_key := kb ++ s.libsodium_key.drop kb.length } 0 .OK
    | _ => setup_errorno s (-1) .NOT_INITED

/-- `MBEDTLS_MAX_IV_LENGTH` (a fixed mbedTLS constant). -/
def MBEDTLS_MAX_IV_LENGTH : Nat := 16

/-- `cipher::set_iv` (crypto_cipher.cpp lines 711-757).  XXTEA: plain OK, the
iv is not stored and the error number is untouched.  CIPHER: under mbedTLS an
iv longer than `MBEDTLS_MAX_IV_LENGTH` is rejected first; without
`VARIABLE_IV_LEN` the length must equal `get_iv_size`; then the iv is stored
verbatim.  Sodium: the length must equal `get_iv_size` exactly. -/
def set_iv (fl : flavor_t) (b : generic_backend_t) (s : cipher_state)
    (iv : List Nat) : errc × cipher_state :=
  match s.interface_ with
  | none => setup_errorno s 0 .NOT_INITED
  | some i =>
    if i.method = .EN_CIMT_INVALID then setup_errorno s 0 .NOT_INITED
    else
      match i.method with
      | .EN_CIMT_INVALID | .EN_CIMT_XXTEA => (.OK, s)
      | .EN_CIMT_CIPHER =>
          if fl = .mbedtls ∧ iv.length > MBEDTLS_MAX_IV_LENGTH then
            setup_errorno s (-1) .INVALID_PARAM
          else if ¬ has_flag i.flags EN_CIFT_VARIABLE_IV_LEN ∧ get_iv_size b s ≠ iv.length then
            setup_errorno s (-1) .INVALID_PARAM
          else setup_errorno { s with iv_ := iv } 0 .OK
      | .EN_CIMT_LIBSODIUM_CHACHA20 | .EN_CIMT_LIBSODIUM_CHACHA20_IETF
      | .EN_CIMT_LIBSODIUM_XCHACHA20 | .EN_CIMT_LIBSODIUM_SALSA20
      | .EN_CIMT_LIBSODIUM_XSALSA20 | .EN_CIMT_LIBSODIUM_CHACHA20_POLY1305
      | .EN_CIMT_LIBSODIUM_CHACHA20_POLY1305_IETF
      | .EN_CIMT_LIBSODIUM_XCHACHA20_POLY1305_IETF =>
          if get_iv_size b s ≠ iv.length then setup_errorno s (-1) .INVALID_PARAM
          else setup_errorno { s with iv_ := iv } 0 .OK
      | _ => (.OK, s)

/-- `cipher::clear_iv`. -/
def clear_iv (s : cipher_state) : cipher_state := { s with iv_ := [] }

/-- `cipher::get_cipher_by_name` (crypto_cipher.cpp lines 1292-1308): look the
name up in the registry, then resolve the back-end-specific name (EVP: the
`openssl_name` when present, else the canonical name; mbedTLS: the
`mbedtls_name`). -/
def get_cipher_by_name (cfg : build_config_t) (fl : flavor_t) (b : generic_backend_t)
    (name : String) : Option String :=
  match get_cipher_interface_by_name cfg (some name) with
  | none => none
  | some itf =>
    match fl with
    | .evp =>
        let n := itf.openssl_name.getD itf.name
        if b.resolves n then some n else none
    | .mbedtls => if b.resolves itf.mbedtls_name then some itf.mbedtls_name else none

/-- `cipher::init_with_cipher` (crypto_cipher.cpp lines 267-388).  Resolves
the back-end cipher handle and creates the per-direction contexts requested by
`mode`.  Context allocation (`EVP_CIPHER_CTX_new` / `malloc` +
`mbedtls_cipher_setup`) is modelled as succeeding: its failure paths
(`MALLOC` / `CIPHER_OPERATION`) depend only on the environment and no claim
concerns them. -/
def init_with_cipher (cfg : build_config_t) (fl : flavor_t) (b : generic_backend_t)
    (s : cipher_state) (itf : Option cipher_interface_info_t) (mode : Nat) :
    errc × cipher_state :=
  match itf with
  | none => setup_errorno s (-1) .INVALID_PARAM
  | some i =>
    if i.method ≠ .EN_CIMT_CIPHER then setup_errorno s (-1) .INVALID_PARAM
    else
      match get_cipher_by_name cfg fl b i.name with
      | none => setup_errorno { s with cipher_kt_ := none } (-1) .CIPHER_NOT_SUPPORT
      | some kt =>
          (.OK,
            { s with
              cipher_kt_ := some kt,
              enc_ctx := if mode &&& EN_CMODE_ENCRYPT ≠ 0 then some ⟨none, 0⟩ else none,
              dec_ctx := if mode &&& EN_CMODE_DECRYPT ≠ 0 then some ⟨none, 0⟩ else none })

/-- `cipher::init` (crypto_cipher.cpp lines 222-265). -/
def init (cfg : build_config_t) (fl : flavor_t) (b : generic_backend_t)
    (s : cipher_state) (name : Option String) (mode : Nat) : errc × cipher_state :=
  if (match s.interface_ with
      | some i0 => decide (i0.method ≠ .EN_CIMT_INVALID)
      | none => false) then
    setup_errorno s (-1) .ALREADY_INITED
  else
    match name with
    | none => setup_errorno s (-1) .INVALID_PARAM
    | some _ =>
      match get_cipher_interface_by_name cfg name with
      | none => setup_errorno s (-1) .CIPHER_NOT_SUPPORT
      | some itf =>
          let body : errc × cipher_state :=
            match itf.method with
            | .EN_CIMT_XXTEA => (.OK, { s with xxtea_key := List.replicate 4 0 })
            | .EN_CIMT_CIPHER => init_with_cipher cfg fl b s (some itf) mode
            | .EN_CIMT_LIBSODIUM_CHACHA20 | .EN_CIMT_LIBSODIUM_CHACHA20_IETF
            | .EN_CIMT_LIBSODIUM_XCHACHA20 | .EN_CIMT_LIBSODIUM_SALSA20
            | .EN_CIMT_LIBSODIUM_XSALSA20 | .EN_CIMT_LIBSODIUM_CHACHA20_POLY1305
            | .EN_CIMT_LIBSODIUM_CHACHA20_POLY1305_IETF
            | .EN_CIMT_LIBSODIUM_XCHACHA20_POLY1305_IETF =>
                (.OK, { s with libsodium_key := List.replicate 32 0 })
            | _ => setup_errorno s (-1) .CIPHER_NOT_SUPPORT
          if body.1 = .OK then (body.1, { body.2 with interface_ := some itf })
          else body

/-- `cipher::close_with_cipher` (crypto_cipher.cpp lines 426-462): free both
back-end contexts, zero the error number, report OK. -/
def close_with_cipher (s : cipher_state) : errc × cipher_state :=
  match s.interface_ with
  | none => setup_errorno s 0 .NOT_INITED
  | some i =>
    if i.method ≠ .EN_CIMT_CIPHER then setup_errorno s 0 .INVALID_PARAM
    else setup_errorno { s with enc_ctx := none, dec_ctx := none } 0 .OK

/-- `cipher::close` (crypto_cipher.cpp lines 390-424): dispatch per method
(xxtea and sodium release nothing), then drop the descriptor reference. -/
def close (s : cipher_state) : errc × cipher_state :=
  match s.interface_ with
  | none => setup_errorno s 0 .NOT_INITED
  | some i =>
    if i.method = .EN_CIMT_INVALID then setup_errorno s 0 .NOT_INITED
    else
      let body : errc × cipher_state :=
        match i.method with
        | .EN_CIMT_XXTEA => setup_errorno s 0 .OK
        | .EN_CIMT_CIPHER => close_with_cipher s
        | .EN_CIMT_LIBSODIUM_CHACHA20 | .EN_CIMT_LIBSODIUM_CHACHA20_IETF
        | .EN_CIMT_LIBSODIUM_XCHACHA20 | .EN_CIMT_LIBSODIUM_SALSA20
        | .EN_CIMT_LIBSODIUM_XSALSA20 | .EN_CIMT_LIBSODIUM_CHACHA20_POLY1305
        | .EN_CIMT_LIBSODIUM_CHACHA20_POLY1305_IETF
        | .EN_CIMT_LIBSODIUM_XCHACHA20_POLY1305_IETF => setup_errorno s 0 .OK
        | _ => setup_errorno s 0 .CIPHER_NOT_SUPPORT
      (body.1, { body.2 with interface_ := none })

/-- Result of one `encrypt`/`decrypt`/`decrypt_aead` call: return code, the
session state after the call, the bytes written to the output buffer (empty on
the paths that write nothing; no claim inspects the buffer of a failed
back-end call), and the value of the output-length out-parameter after the
call (`none` models a NULL pointer). -/
structure crypt_result where
  code : errc
  st : cipher_state
  output : List Nat
  olen : Option Nat
  deriving DecidableEq, Repr

/-- Result of one `encrypt_aead` call; additionally carries the bytes written
into the caller's tag buffer (empty when nothing was written). -/
structure aead_result where
  code : errc
  st : cipher_state
  output : List Nat
  olen : Option Nat
  tag : List Nat
  deriving DecidableEq, Repr

/-- The shared parameter check of the four crypt entry points:
`input == NULL || ilen <= 0 || output == NULL || NULL == olen || *olen <= 0 ||
*olen < ilen + get_block_size()` (the output pointer is modelled as always
non-NULL; its contents are the `output` field of the result). -/
def crypt_args_invalid (input : Option (List Nat)) (olen : Option Nat) (bs : Nat) : Bool :=
  match input with
  | none => true
  | some inp =>
    inp.length == 0 ||
      match olen with
      | none => true
      | some ol => ol == 0 || decide (ol < inp.length + bs)

/-- The iv zero-padding step shared by the four crypt entry points: for
methods at or above `EN_CIMT_CIPHER` without `VARIABLE_IV_LEN`, a too-short iv
buffer is resized to `get_iv_size()` with zero fill (when that size is
non-zero). -/
def pad_iv (b : generic_backend_t) (s : cipher_state) : cipher_state :=
  match s.interface_ with
  | none => s
  | some i =>
    if i.method.code ≥ method_t.EN_CIMT_CIPHER.code ∧
        ¬ has_flag i.flags EN_CIFT_VARIABLE_IV_LEN ∧
        s.iv_.length < get_iv_size b s then
      if get_iv_size b s ≠ 0 then
        { s with iv_ := s.iv_ ++ List.replicate (get_iv_size b s - s.iv_.length) 0 }
      else s
    else s

/-- `cipher::encrypt` (crypto_cipher.cpp lines 761-875).  Note that the
xchacha20 stream block in the source sits after a `return` with no `case`
label, so `EN_CIMT_LIBSODIUM_XCHACHA20` reaches the `default:` branch. -/
def encrypt (fl : flavor_t) (b : generic_backend_t) (sb : sodium_backend_t)
    (s : cipher_state) (input : Option (List Nat)) (olen : Option Nat) : crypt_result :=
  match s.interface_ with
  | none => ⟨.NOT_INITED, { s with last_errorno_ := 0 }, [], olen⟩
  | some i =>
    if i.method = .EN_CIMT_INVALID then ⟨.NOT_INITED, { s with last_errorno_ := 0 }, [], olen⟩
    else if is_aead s then ⟨.MUST_CALL_AEAD_API, s, [], olen⟩
    else if crypt_args_invalid input olen (get_block_size b s) then
      ⟨.INVALID_PARAM, { s with last_errorno_ := -1 }, [], olen⟩
    else
      let inp := input.getD []
      let sp := pad_iv b s
      match i.method with
      | .EN_CIMT_XXTEA =>
          let out := xxtea_encrypt_bytes sp.xxtea_key inp
          ⟨.OK, { sp with last_errorno_ := 0 }, out, some out.length⟩
      | .EN_CIMT_CIPHER =>
          match sp.enc_ctx with
          | none => ⟨.CIPHER_DISABLED, { sp with last_errorno_ := 0 }, [], olen⟩
          | some ctx =>
            match fl with
            | .evp =>
                match b.enc_oneshot
                    ⟨ctx.key, if sp.iv_.isEmpty then none else some sp.iv_,
                      has_flag i.flags EN_CIFT_ENCRYPT_NO_PADDING,
                      has_flag i.flags EN_CIFT_NO_FINISH, inp⟩ with
                | .error (.err_set_iv, e) =>
                    ⟨.CIPHER_OPERATION_SET_IV, { sp with last_errorno_ := e }, [], olen⟩
                | .error (.err_op, e) =>
                    ⟨.CIPHER_OPERATION, { sp with last_errorno_ := e }, [], olen⟩
                | .ok out => ⟨.OK, sp, out, some out.length⟩
            | .mbedtls =>
                if has_flag i.flags EN_CIFT_ENCRYPT_NO_PADDING ∧ b.is_cbc ∧
                    b.set_padding_res ≠ 0 then
                  ⟨.CIPHER_OPERATION, { sp with last_errorno_ := b.set_padding_res }, [], olen⟩
                else
                  let r := b.mbt_crypt true (ctx.key.map fun k => (k, ctx.bits)) sp.iv_ inp
                  if r.1 ≠ 0 then ⟨.CIPHER_OPERATION, { sp with last_errorno_ := r.1 }, [], olen⟩
                  else ⟨.OK, { sp with last_errorno_ := r.1 }, r.2, some r.2.length⟩
      | .EN_CIMT_LIBSODIUM_CHACHA20 | .EN_CIMT_LIBSODIUM_CHACHA20_IETF
      | .EN_CIMT_LIBSODIUM_SALSA20 | .EN_CIMT_LIBSODIUM_XSALSA20 =>
          let out := xor_ks
              (sb.ks i.method sp.libsodium_key (sp.iv_.drop LIBSODIUM_COUNTER_SIZE)
                (libsodium_get_counter sp.iv_)) 0 inp
          let s2 := { sp with last_errorno_ := sb.stream_res i.method }
          if sb.stream_res i.method ≠ 0 then ⟨.LIBSODIUM_OPERATION, s2, out, olen⟩
          else ⟨.OK, s2, out, olen⟩
      | _ => ⟨.NOT_INITED, { sp with last_errorno_ := -1 }, [], olen⟩

/-- `cipher::decrypt` (crypto_cipher.cpp lines 877-992); mirror of `encrypt`
on the decrypt context with the `DECRYPT_NO_PADDING` flag. -/
def decrypt (fl : flavor_t) (b : generic_backend_t) (sb : sodium_backend_t)
    (s : cipher_state) (input : Option (List Nat)) (olen : Option Nat) : crypt_result :=
  match s.interface_ with
  | none => ⟨.NOT_INITED, { s with last_errorno_ := 0 }, [], olen⟩
  | some i =>
    if i.method = .EN_CIMT_INVALID then ⟨.NOT_INITED, { s with last_errorno_ := 0 }, [], olen⟩
    else if is_aead s then ⟨.MUST_CALL_AEAD_API, s, [], olen⟩
    else if crypt_args_invalid input olen (get_block_size b s) then
      ⟨.INVALID_PARAM, { s with last_errorno_ := -1 }, [], olen⟩
    else
      let inp := input.getD []
      let sp := pad_iv b s
      match i.method with
      | .EN_CIMT_XXTEA =>
          let out := xxtea_decrypt_bytes sp.xxtea_key inp
          ⟨.OK, { sp with last_errorno_ := 0 }, out, some out.length⟩
      | .EN_CIMT_CIPHER =>
          match sp.dec_ctx with
          | none => ⟨.CIPHER_DISABLED, { sp with last_errorno_ := 0 }, [], olen⟩
          | some ctx =>
            match fl with
            | .evp =>
                match b.dec_oneshot
                    ⟨ctx.key, if sp.iv_.isEmpty then none else some sp.iv_,
                      has_flag i.flags EN_CIFT_DECRYPT_NO_PADDING,
                      has_flag i.flags EN_CIFT_NO_FINISH, inp⟩ with
                | .error (.err_set_iv, e) =>
                    ⟨.CIPHER_OPERATION_SET_IV, { sp with last_errorno_ := e }, [], olen⟩
                | .error (.err_op, e) =>
                    ⟨.CIPHER_OPERATION, { sp with last_errorno_ := e }, [], olen⟩
                | .ok out => ⟨.OK, sp, out, some out.length⟩
            | .mbedtls =>
                if has_flag i.flags EN_CIFT_DECRYPT_NO_PADDING ∧ b.is_cbc ∧
                    b.set_padding_res ≠ 0 then
                  ⟨.CIPHER_OPERATION, { sp with last_errorno_ := b.set_padding_res }, [], olen⟩
                else
                  let r := b.mbt_crypt false (ctx.key.map fun k => (k, ctx.bits)) sp.iv_ inp
                  if r.1 ≠ 0 then ⟨.CIPHER_OPERATION, { sp with last_errorno_ := r.1 }, [], olen⟩
                  else ⟨.OK, { sp with last_errorno_ := r.1 }, r.2, some r.2.length⟩
      | .EN_CIMT_LIBSODIUM_CHACHA20 | .EN_CIMT_LIBSODIUM_CHACHA20_IETF
      | .EN_CIMT_LIBSODIUM_SALSA20 | .EN_CIMT_LIBSODIUM_XSALSA20 =>
          let out := xor_ks
              (sb.ks i.method sp.libsodium_key (sp.iv_.drop LIBSODIUM_COUNTER_SIZE)
                (libsodium_get_counter sp.iv_)) 0 inp
          let s2 := { sp with last_errorno_ := sb.stream_res i.method }
          if sb.stream_res i.method ≠ 0 then ⟨.LIBSODIUM_OPERATION, s2, out, olen⟩
          else ⟨.OK, s2, out, olen⟩
      | _ => ⟨.NOT_INITED, { sp with last_errorno_ := -1 }, [], olen⟩

/-- `cipher::encrypt_aead` (crypto_cipher.cpp lines 994-1139).  `ad = none`
models a NULL associated-data pointer; `tag_len` the caller's tag-buffer
length (the tag pointer is modelled as non-NULL; when `tag_len` is 0 the EVP
get-tag control call is skipped and the tag result stays empty). -/
def encrypt_aead (fl : flavor_t) (b : generic_backend_t) (sb : sodium_backend_t)
    (s : cipher_state) (input : Option (List Nat)) (olen : Option Nat)
    (ad : Option (List Nat)) (tag_len : Nat) : aead_result :=
  match s.interface_ with
  | none => ⟨.NOT_INITED, { s with last_errorno_ := 0 }, [], olen, []⟩
  | some i =>
    if i.method = .EN_CIMT_INVALID then
      ⟨.NOT_INITED, { s with last_errorno_ := 0 }, [], olen, []⟩
    else if ¬ is_aead s then ⟨.MUST_NOT_CALL_AEAD_API, s, [], olen, []⟩
    else if crypt_args_invalid input olen (get_block_size b s) then
      ⟨.INVALID_PARAM, { s with last_errorno_ := -1 }, [], olen, []⟩
    else
      let inp := input.getD []
      let sp := pad_iv b s
      match i.method with
      | .EN_CIMT_CIPHER =>
          match sp.enc_ctx with
          | none => ⟨.CIPHER_DISABLED, { sp with last_errorno_ := 0 }, [], olen, []⟩
          | some ctx =>
            match fl with
            | .evp =>
                match b.aead_enc_oneshot
                    ⟨ctx.key, if sp.iv_.isEmpty then none else some sp.iv_,
                      has_flag i.flags EN_CIFT_VARIABLE_IV_LEN,
                      has_flag i.flags EN_CIFT_AEAD_SET_LENGTH_BEFORE,
                      (match ad with
                       | some a => if a.length ≠ 0 then some a else none
                       | none => none),
                      has_flag i.flags EN_CIFT_ENCRYPT_NO_PADDING,
                      has_flag i.flags EN_CIFT_NO_FINISH, inp, tag_len, none⟩ with
                | .error (.err_set_iv, e) =>
                    ⟨.CIPHER_OPERATION_SET_IV, { sp with last_errorno_ := e }, [], olen, []⟩
                | .error (.err_op, e) =>
                    ⟨.CIPHER_OPERATION, { sp with last_errorno_ := e }, [], olen, []⟩
                | .ok r =>
                    ⟨.OK, sp, r.1, some r.1.length, if tag_len ≠ 0 then r.2 else []⟩
            | .mbedtls =>
                let r := b.mbt_auth_encrypt (ctx.key.map fun k => (k, ctx.bits)) sp.iv_
                    (ad.getD []) inp tag_len
                if r.1 ≠ 0 then
                  ⟨.CIPHER_OPERATION, { sp with last_errorno_ := r.1 }, [], olen, []⟩
                else ⟨.OK, { sp with last_errorno_ := r.1 }, r.2.1, some r.2.1.length, r.2.2⟩
      | .EN_CIMT_LIBSODIUM_CHACHA20_POLY1305 | .EN_CIMT_LIBSODIUM_CHACHA20_POLY1305_IETF
      | .EN_CIMT_LIBSODIUM_XCHACHA20_POLY1305_IETF =>
          if sodium_ABYTES > tag_len then ⟨.LIBSODIUM_OPERATION_TAG_LEN, sp, [], olen, []⟩
          else
            let r := sb.aead_enc i.method sp.libsodium_key sp.iv_ (ad.getD []) inp
            if r.1 ≠ 0 then
              ⟨.LIBSODIUM_OPERATION, { sp with last_errorno_ := r.1 }, [], olen, []⟩
            else ⟨.OK, { sp with last_errorno_ := r.1 }, r.2.1, olen, r.2.2⟩
      | _ => ⟨.NOT_INITED, { sp with last_errorno_ := -1 }, [], olen, []⟩

/-- `cipher::decrypt_aead` (crypto_cipher.cpp lines 1141-1290).  `tag` is the
caller's tag of length `tag_len` (pointer modelled non-NULL).  The XXTEA case
of the source switch is translated although the `is_aead` guard makes it
unreachable. -/
def decrypt_aead (fl : flavor_t) (b : generic_backend_t) (sb : sodium_backend_t)
    (s : cipher_state) (input : Option (List Nat)) (olen : Option Nat)
    (ad : Option (List Nat)) (tag : List Nat) : crypt_result :=
  match s.interface_ with
  | none => ⟨.NOT_INITED, { s with last_errorno_ := 0 }, [], olen⟩
  | some i =>
    if i.method = .EN_CIMT_INVALID then ⟨.NOT_INITED, { s with last_errorno_ := 0 }, [], olen⟩
    else if ¬ is_aead s then ⟨.MUST_NOT_CALL_AEAD_API, s, [], olen⟩
    else if crypt_args_invalid input olen (get_block_size b s) then
      ⟨.INVALID_PARAM, { s with last_errorno_ := -1 }, [], olen⟩
    else
      let inp := input.getD []
      let sp := pad_iv b s
      match i.method with
      | .EN_CIMT_XXTEA =>
          let out := xxtea_decrypt_bytes sp.xxtea_key inp
          ⟨.OK, { sp with last_errorno_ := 0 }, out, some out.length⟩
      | .EN_CIMT_CIPHER =>
          match sp.dec_ctx with
          | none => ⟨.CIPHER_DISABLED, { sp with last_errorno_ := 0 }, [], olen⟩
          | some ctx =>
            match fl with
            | .evp =>
                match b.aead_dec_oneshot
                    ⟨ctx.key, if sp.iv_.isEmpty then none else some sp.iv_,
                      has_flag i.flags EN_CIFT_VARIABLE_IV_LEN,
                      has_flag i.flags EN_CIFT_AEAD_SET_LENGTH_BEFORE,
                      (match ad with
                       | some a => if a.length ≠ 0 then some a else none
                       | none => none),
                      has_flag i.flags EN_CIFT_DECRYPT_NO_PADDING,
                      has_flag i.flags EN_CIFT_NO_FINISH, inp, tag.length,
                      if tag.length ≠ 0 then some tag else none⟩ with
                | .error (.err_set_iv, e) =>
                    ⟨.CIPHER_OPERATION_SET_IV, { sp with last_errorno_ := e }, [], olen⟩
                | .error (.err_op, e) =>
                    ⟨.CIPHER_OPERATION, { sp with last_errorno_ := e }, [], olen⟩
                | .ok out => ⟨.OK, sp, out, some out.length⟩
            | .mbedtls =>
                let r := b.mbt_auth_decrypt (ctx.key.map fun k => (k, ctx.bits)) sp.iv_
                    (ad.getD []) inp tag
                if r.1 ≠ 0 then ⟨.CIPHER_OPERATION, { sp with last_errorno_ := r.1 }, [], olen⟩
                else ⟨.OK, { sp with last_errorno_ := r.1 }, r.2, some r.2.length⟩
      | .EN_CIMT_LIBSODIUM_CHACHA20_POLY1305 | .EN_CIMT_LIBSODIUM_CHACHA20_POLY1305_IETF
      | .EN_CIMT_LIBSODIUM_XCHACHA20_POLY1305_IETF =>
          if sodium_ABYTES > tag.length then ⟨.LIBSODIUM_OPERATION_TAG_LEN, sp, [], olen⟩
          else
            let r := sb.aead_dec i.method sp.libsodium_key sp.iv_ (ad.getD []) tag inp
            if r.1 ≠ 0 then ⟨.LIBSODIUM_OPERATION, { sp with last_errorno_ := r.1 }, [], olen⟩
            else ⟨.OK, { sp with last_errorno_ := r.1 }, r.2, olen⟩
      | _ => ⟨.NOT_INITED, { sp with last_errorno_ := -1 }, [], olen⟩

/-- `cipher::ciphertok` delimiter set (crypto_cipher.cpp lines 1321, 1326). -/
def is_cipher_delim (c : Char) : Bool :=
  c = ' ' || c = '\t' || c = '\r' || c = '\n' || c = ';' || c = ',' || c = ':'

/-- Number of leading delimiter characters skipped by the first loop of
`cipher::ciphertok`. -/
def ciphertok_skip : List Char → Nat
  | [] => 0
  | c :: r => if is_cipher_delim c then 1 + ciphertok_skip r else 0

/-- Length of the delimiter-free run scanned by the second loop of
`cipher::ciphertok`. -/
def ciphertok_scan : List Char → Nat
  | [] => 0
  | c :: r => if is_cipher_delim c then 0 else 1 + ciphertok_scan r

/-- `cipher::ciphertok` (crypto_cipher.cpp lines 1310-1338).  The C string is
a NUL-free character list (`none` models a NULL input pointer); the returned
pointer pair `(b, e)` is modelled as the pair of offsets from the start of the
input, `none` modelling the `(NULL, NULL)` result. -/
def ciphertok (inp : Option (List Char)) : Option (Nat × Nat) :=
  match inp with
  | none => none
  | some s =>
    let bo := ciphertok_skip s
    let eo := bo + ciphertok_scan (s.drop bo)
    if eo ≤ bo then none else some (bo, eo)

/-! ### Concrete instances used by witnesses and counterexamples -/

/-- Build with every optional registry entry compiled in. -/
def cfg_all : build_config_t := ⟨true, true, true, true, true, true⟩

/-- Build with only the libsodium optional entries compiled in (no
generic-cipher chacha20), so `chacha20` resolves to the sodium entry. -/
def cfg_sodium : build_config_t := ⟨false, false, true, true, true, true⟩

/-- A concrete generic back-end whose one-shots are identities: enough to
exercise the session logic on closed inputs. -/
def triv_gb : generic_backend_t :=
  { resolves := fun _ => true
    iv_length := 16
    key_bits := 128
    block_size := 16
    is_cbc := false
    set_padding_res := 0
    setkey_res := 0
    evp_setkey_ok := true
    evp_errno := 0
    enc_oneshot := fun a => .ok a.input
    dec_oneshot := fun a => .ok a.input
    aead_enc_oneshot := fun a => .ok (a.input, List.replicate a.tag_len 0)
    aead_dec_oneshot := fun a => .ok a.input
    mbt_crypt := fun _ _ _ inp => (0, inp)
    mbt_auth_encrypt := fun _ _ _ inp tl => (0, inp, List.replicate tl 0)
    mbt_auth_decrypt := fun _ _ _ inp _ => (0, inp) }

/-- A concrete sodium back-end with an all-zero keystream and trivially
matching AEAD primitives. -/
def triv_sb : sodium_backend_t :=
  { ks := fun _ _ _ _ _ => 0
    stream_res := fun _ => 0
    aead_enc := fun _ _ _ _ msg => (0, msg, List.replicate 16 0)
    aead_dec := fun _ _ _ _ _ c => (0, c) }

/-- An initialized xxtea session. -/
def s_xxtea : cipher_state :=
  (init cfg_all .evp triv_gb empty_cipher (some "xxtea") 3).2

/-- An initialized sodium-chacha20 session (sodium-only build) with key and
16-byte iv bound. -/
def s_chacha20sod : cipher_state :=
  let s1 := (init cfg_sodium .evp triv_gb empty_cipher (some "chacha20") 3).2
  let s2 := (set_key .evp triv_gb s1 (List.replicate 32 7) 256).2
  (set_iv .evp triv_gb s2 (List.replicate 16 0)).2

/-- An initialized sodium-xchacha20 session with key and 32-byte iv bound. -/
def s_xchacha20 : cipher_state :=
  let s1 := (init cfg_sodium .evp triv_gb empty_cipher (some "xchacha20") 3).2
  let s2 := (set_key .evp triv_gb s1 (List.replicate 32 7) 256).2
  (set_iv .evp triv_gb s2 (List.replicate 32 0)).2

/-- An initialized aes-256-gcm session (EVP flavor). -/
def s_gcm : cipher_state :=
  (init cfg_all .evp triv_gb empty_cipher (some "aes-256-gcm") 3).2

/-- An initialized aes-128-cbc session, EVP flavor. -/
def s_cbc_evp : cipher_state :=
  (init cfg_all .evp triv_gb empty_cipher (some "aes-128-cbc") 3).2

/-- An initialized aes-128-cbc session, mbedTLS flavor. -/
def s_cbc_mbt : cipher_state :=
  (init cfg_all .mbedtls triv_gb empty_cipher (some "aes-128-cbc") 3).2

/-- A sodium-chacha20 session carrying a non-empty iv buffer and a non-zero
`last_errorno_` (obtained from a rejected encrypt call with a NULL input). -/
def s_dirty : cipher_state :=
  (encrypt .evp triv_gb triv_sb s_chacha20sod none (some 1)).st

/-! ### Theorems: token parser (C9) -/

theorem list_getD_drop (s : List Char) : ∀ n j, (s.drop n).getD j ' ' = s.getD (n + j) ' ' := by
  induction s with
  | nil => intro n j; simp
  | cons c r ih =>
    intro n j
    cases n with
    | zero => simp
    | succ m =>
        have : m + 1 + j = (m + j) + 1 := by omega
        simp only [List.drop_succ_cons, this, List.getD_cons_succ]
        exact ih m j

theorem ciphertok_skip_le (s : List Char) : ciphertok_skip s ≤ s.length := by
  induction s with
  | nil => simp [ciphertok_skip]
  | cons c r ih => by_cases h : is_cipher_delim c <;> simp [ciphertok_skip, h] <;> omega

theorem ciphertok_scan_le (s : List Char) : ciphertok_scan s ≤ s.length := by
  induction s with
  | nil => simp [ciphertok_scan]
  | cons c r ih => by_cases h : is_cipher_delim c <;> simp [ciphertok_scan, h] <;> omega

theorem ciphertok_skip_delims (s : List Char) :
    ∀ j, j < ciphertok_skip s → is_cipher_delim (s.getD j ' ') = true := by
  induction s with
  | nil => intro j h; simp [ciphertok_skip] at h
  | cons c r ih =>
    intro j h
    by_cases hc : is_cipher_delim c
    · cases j with
      | zero => simpa using hc
      | succ m =>
          simp only [ciphertok_skip, hc, if_true] at h
          simpa using ih m (by omega)
    · simp [ciphertok_skip, hc] at h

theorem ciphertok_scan_not_delim (s : List Char) :
    ∀ j, j < ciphertok_scan s → is_cipher_delim (s.getD j ' ') = false := by
  induction s with
  | nil => intro j h; simp [ciphertok_scan] at h
  | cons c r ih =>
    intro j h
    by_cases hc : is_cipher_delim c
    · simp [ciphertok_scan, hc] at h
    · cases j with
      | zero => simpa using hc
      | succ m =>
          simp only [ciphertok_scan, hc, if_false, Bool.false_eq_true] at h
          simpa using ih m (by omega)

theorem ciphertok_scan_end (s : List Char) :
    ciphertok_scan s = s.length ∨ is_cipher_delim (s.getD (ciphertok_scan s) ' ') = true := by
  induction s with
  | nil => left; simp [ciphertok_scan]
  | cons c r ih =>
    by_cases hc : is_cipher_delim c
    · right; simpa [ciphertok_scan, hc] using hc
    · rcases ih with h | h
      · left; simp [ciphertok_scan, hc]; omega
      · right
        have h1 : (1 : Nat) + ciphertok_scan r = ciphertok_scan r + 1 := by omega
        simp only [ciphertok_scan, hc, if_false, h1, List.getD_cons_succ]
        exact h

theorem ciphertok_skip_all (s : List Char) (h : ∀ c ∈ s, is_cipher_delim c = true) :
    ciphertok_skip s = s.length := by
  induction s with
  | nil => simp [ciphertok_skip]
  | cons c r ih =>
      have hr := ih (fun x hx => h x (by simp [hx]))
      simp [ciphertok_skip, h c (by simp), hr]
      omega

theorem ciphertok_skip_lt (s : List Char) (h : ∃ c ∈ s, is_cipher_delim c = false) :
    ciphertok_skip s < s.length := by
  induction s with
  | nil => obtain ⟨c, hc, _⟩ := h; simp at hc
  | cons c r ih =>
    by_cases hd : is_cipher_delim c
    · obtain ⟨x, hx, hxd⟩ := h
      have hxr : x ∈ r := by
        rcases List.mem_cons.mp hx with rfl | hxr
        · rw [hd] at hxd; cases hxd
        · exact hxr
      have hr := ih ⟨x, hxr, hxd⟩
      have h3 : ciphertok_skip (c :: r) = 1 + ciphertok_skip r := by simp [ciphertok_skip, hd]
      rw [h3]
      simp only [List.length_cons]
      omega
    · have h0 : ciphertok_skip (c :: r) = 0 := by simp [ciphertok_skip, hd]
      rw [h0]
      simp only [List.length_cons]
      omega

theorem ciphertok_skip_stop (s : List Char) (h : ciphertok_skip s < s.length) :
    is_cipher_delim (s.getD (ciphertok_skip s) ' ') = false := by
  induction s with
  | nil => simp [ciphertok_skip] at h
  | cons c r ih =>
    by_cases hd : is_cipher_delim c
    · have h3 : ciphertok_skip (c :: r) = 1 + ciphertok_skip r := by simp [ciphertok_skip, hd]
      have h4 : 1 + ciphertok_skip r = ciphertok_skip r + 1 := by omega
      rw [h3, h4, List.getD_cons_succ]
      apply ih
      rw [h3] at h
      simp only [List.length_cons] at h
      omega
    · have h0 : ciphertok_skip (c :: r) = 0 := by simp [ciphertok_skip, hd]
      rw [h0, List.getD_cons_zero]
      simpa using hd

theorem ciphertok_scan_pos (s : List Char) (h : is_cipher_delim (s.getD 0 ' ') = false)
    (hne : s ≠ []) : 0 < ciphertok_scan s := by
  cases s with
  | nil => exact absurd rfl hne
  | cons c r =>
    rw [List.getD_cons_zero] at h
    simp [ciphertok_scan, h]

/-- C9: `ciphertok` returns `(null, null)` for a NULL input and for an input
whose remainder holds only delimiters; for any input containing at least one
non-delimiter character it returns (a `some` result, never null) the offsets
`[begin, end)` of the first maximal delimiter-free token: the prefix before
`begin` is all delimiters, the token is non-empty and delimiter-free, and it
ends at the string end or at a delimiter. -/
theorem ciphertok_spec :
    ciphertok none = none ∧
    (∀ s : List Char, (∀ c ∈ s, is_cipher_delim c = true) → ciphertok (some s) = none) ∧
    (∀ s : List Char, (∃ c ∈ s, is_cipher_delim c = false) →
      ∃ bo eo : Nat, ciphertok (some s) = some (bo, eo) ∧
        bo < eo ∧ eo ≤ s.length ∧
        (∀ j, j < bo → is_cipher_delim (s.getD j ' ') = true) ∧
        (∀ j, bo ≤ j → j < eo → is_cipher_delim (s.getD j ' ') = false) ∧
        (eo = s.length ∨ is_cipher_delim (s.getD eo ' ') = true)) := by
  refine ⟨rfl, ?_, ?_⟩
  · intro s h
    have hs : ciphertok_skip s = s.length := ciphertok_skip_all s h
    have hd : s.drop (ciphertok_skip s) = [] := by
      rw [hs]; exact List.drop_length s
    simp [ciphertok, hd, ciphertok_scan]
  · intro s h
    have hsl : ciphertok_skip s < s.length := ciphertok_skip_lt s h
    have hnd := ciphertok_skip_stop s hsl
    have hdne : s.drop (ciphertok_skip s) ≠ [] := by
      intro hcon
      have hlen := congrArg List.length hcon
      simp only [List.length_drop, List.length_nil] at hlen
      omega
    have h0 : is_cipher_delim ((s.drop (ciphertok_skip s)).getD 0 ' ') = false := by
      rw [list_getD_drop]
      simpa using hnd
    have hpos := ciphertok_scan_pos (s.drop (ciphertok_skip s)) h0 hdne
    have hskip := ciphertok_skip_le s
    have hscan := ciphertok_scan_le (s.drop (ciphertok_skip s))
    have hdl : (s.drop (ciphertok_skip s)).length = s.length - ciphertok_skip s := by
      simp [List.length_drop]
    refine ⟨ciphertok_skip s, ciphertok_skip s + ciphertok_scan (s.drop (ciphertok_skip s)),
      ?_, by omega, by omega, ciphertok_skip_delims s, ?_, ?_⟩
    · simp only [ciphertok]
      rw [if_neg (by omega)]
    · intro j hj1 hj2
      have hlt : j - ciphertok_skip s < ciphertok_scan (s.drop (ciphertok_skip s)) := by omega
      have hnd2 := ciphertok_scan_not_delim (s.drop (ciphertok_skip s)) _ hlt
      rw [list_getD_drop] at hnd2
      have hj : ciphertok_skip s + (j - ciphertok_skip s) = j := by omega
      rwa [hj] at hnd2
    · rcases ciphertok_scan_end (s.drop (ciphertok_skip s)) with hse | hse
      · left; omega
      · right; rwa [list_getD_drop] at hse

theorem ciphertok_spec_witness :
    ciphertok (some [' ', ',', ';']) = none ∧
    (∃ bo eo : Nat, ciphertok (some [' ', 'a', 'b', ',']) = some (bo, eo) ∧
      bo < eo ∧ eo ≤ ([' ', 'a', 'b', ','] : List Char).length ∧
      (∀ j, j < bo → is_cipher_delim (([' ', 'a', 'b', ','] : List Char).getD j ' ') = true) ∧
      (∀ j, bo ≤ j → j < eo →
        is_cipher_delim (([' ', 'a', 'b', ','] : List Char).getD j ' ') = false) ∧
      (eo = ([' ', 'a', 'b', ','] : List Char).length ∨
        is_cipher_delim (([' ', 'a', 'b', ','] : List Char).getD eo ' ') = true)) :=
  ⟨ciphertok_spec.2.1 [' ', ',', ';'] (by decide),
   ciphertok_spec.2.2 [' ', 'a', 'b', ','] (by decide)⟩

/-! ### Theorems: name resolution (C8) and init name handling (C5) -/

theorem list_find?_first {α : Type} (p : α → Bool) :
    ∀ (l : List α) (a : α), l.find? p = some a →
      ∃ pre post, l = pre ++ a :: post ∧ p a = true ∧ ∀ j ∈ pre, p j = false := by
  intro l
  induction l with
  | nil => intro a h; simp [List.find?] at h
  | cons x xs ih =>
    intro a h
    by_cases hx : p x
    · rw [List.find?_cons_of_pos _ hx] at h
      obtain rfl := Option.some.injEq .. ▸ h
      exact ⟨[], xs, rfl, hx, by simp⟩
    · rw [List.find?_cons_of_neg _ (by simpa using hx)] at h
      obtain ⟨pre, post, heq, hp, hpre⟩ := ih a h
      refine ⟨x :: pre, post, by simp [heq], hp, ?_⟩
      intro j hj
      rcases List.mem_cons.mp hj with rfl | hj
      · simpa using hx
      · exact hpre j hj

/-- C8: name resolution scans the registry linearly and returns the first
entry whose canonical name matches case-insensitively; in particular, in a
build where both the generic-cipher and the libsodium `chacha20` entries are
compiled in, `"chacha20"` (in any letter case) resolves to the
`EN_CIMT_CIPHER` descriptor, not the sodium one. -/
theorem lookup_first_match :
    (∀ (cfg : build_config_t) (name : String) (itf : cipher_interface_info_t),
      get_cipher_interface_by_name cfg (some name) = some itf →
      ∃ pre post, supported_ciphers cfg = pre ++ itf :: post ∧
        strcase_eq name itf.name = true ∧
        ∀ j ∈ pre, strcase_eq name j.name = false) ∧
    (get_cipher_interface_by_name cfg_all (some "chacha20")).map (fun i => i.method)
      = some .EN_CIMT_CIPHER ∧
    (get_cipher_interface_by_name cfg_all (some "CHACHA20")).map (fun i => i.method)
      = some .EN_CIMT_CIPHER := by
  refine ⟨?_, by decide, by decide⟩
  intro cfg name itf h
  exact list_find?_first _ _ _ h

theorem lookup_first_match_witness :
    ∃ pre post,
      supported_ciphers cfg_all =
        pre ++ (⟨"rc4", .EN_CIMT_CIPHER, none, "ARC4-128", EN_CIFT_NONE⟩ :
          cipher_interface_info_t) :: post ∧
      strcase_eq "RC4" "rc4" = true ∧
      ∀ j ∈ pre, strcase_eq "RC4" j.name = false := by
  have h := lookup_first_match.1 cfg_all "RC4"
    ⟨"rc4", .EN_CIMT_CIPHER, none, "ARC4-128", EN_CIFT_NONE⟩ (by decide)
  obtain ⟨pre, post, heq, hp, hpre⟩ := h
  exact ⟨pre, post, heq, hp, hpre⟩

theorem empty_name_not_found (cfg : build_config_t) :
    get_cipher_interface_by_name cfg (some "") = none := by
  rcases cfg with ⟨c1, c2, c3, c4, c5, c6⟩
  cases c1 <;> cases c2 <;> cases c3 <;> cases c4 <;> cases c5 <;> cases c6 <;> decide

theorem init_empty_name_counterexample :
    (init cfg_all .evp triv_gb empty_cipher (some "") 3).1 = .CIPHER_NOT_SUPPORT ∧
    (init cfg_all .evp triv_gb empty_cipher (some "") 3).1 ≠ .INVALID_PARAM ∧
    (init cfg_all .evp triv_gb empty_cipher (some "") 3).2.interface_ = none := by
  decide

/-- C5 (amended): on an uninitialized session, `init` with a NULL name returns
`INVALID_PARAM`; with an empty (zero-length) name the registry scan finds
nothing and `init` returns `CIPHER_NOT_SUPPORT`; in both cases the session
stays uninitialized (only `last_errorno_` is set to -1). -/
theorem init_name_handling (cfg : build_config_t) (fl : flavor_t) (b : generic_backend_t)
    (s : cipher_state) (mode : Nat) (h : s.interface_ = none) :
    init cfg fl b s none mode = (.INVALID_PARAM, { s with last_errorno_ := -1 }) ∧
    init cfg fl b s (some "") mode = (.CIPHER_NOT_SUPPORT, { s with last_errorno_ := -1 }) := by
  have hmatch : (match s.interface_ with
      | some i0 => decide (i0.method ≠ .EN_CIMT_INVALID)
      | none => false) = false := by rw [h]
  constructor
  · unfold init
    rw [hmatch]
    simp [setup_errorno]
  · unfold init
    rw [hmatch]
    simp [empty_name_not_found cfg, setup_errorno]

theorem init_name_handling_witness :
    init cfg_all .evp triv_gb empty_cipher none 3
      = (.INVALID_PARAM, { empty_cipher with last_errorno_ := -1 }) ∧
    init cfg_all .evp triv_gb empty_cipher (some "") 3
      = (.CIPHER_NOT_SUPPORT, { empty_cipher with last_errorno_ := -1 }) :=
  init_name_handling cfg_all .evp triv_gb empty_cipher 3 rfl

/-! ### Theorems: set_iv (C3) and close (C4) -/

theorem set_iv_xxtea_counterexample :
    s_xxtea.interface_.map (fun i => has_flag i.flags EN_CIFT_VARIABLE_IV_LEN) = some false ∧
    get_iv_size triv_gb s_xxtea = 0 ∧
    (set_iv .evp triv_gb s_xxtea [0]).1 = .OK ∧
    (set_iv .evp triv_gb s_xxtea [0]).1 ≠ .INVALID_PARAM := by
  decide

/-- C3 (amended): for an initialized session, a `CIPHER`-method descriptor
without `VARIABLE_IV_LEN` and every sodium-method descriptor reject an iv
whose length differs from `iv_size()` with `INVALID_PARAM`; the XXTEA branch
however returns `OK` for any length, stores nothing and leaves the session
untouched. -/
theorem set_iv_spec (fl : flavor_t) (b : generic_backend_t) (s : cipher_state)
    (i : cipher_interface_info_t) (iv : List Nat) (h : s.interface_ = some i) :
    (i.method = .EN_CIMT_CIPHER → has_flag i.flags EN_CIFT_VARIABLE_IV_LEN = false →
      iv.length ≠ get_iv_size b s → (set_iv fl b s iv).1 = .INVALID_PARAM) ∧
    ((i.method.is_sodium_stream = true ∨ i.method.is_sodium_aead = true) →
      iv.length ≠ get_iv_size b s → (set_iv fl b s iv).1 = .INVALID_PARAM) ∧
    (i.method = .EN_CIMT_XXTEA → set_iv fl b s iv = (.OK, s)) := by
  refine ⟨?_, ?_, ?_⟩
  · intro hm hv hl
    unfold set_iv
    rw [h]
    simp only [hm]
    rw [if_neg (by simp)]
    by_cases hmb : fl = .mbedtls ∧ iv.length > MBEDTLS_MAX_IV_LENGTH
    · rw [if_pos hmb]; rfl
    · rw [if_neg hmb, if_pos ⟨by simp [hv], Ne.symm hl⟩]; rfl
  · intro hm hl
    unfold set_iv
    rw [h]
    cases hm3 : i.method <;>
      first
        | (simp [hm3, method_t.is_sodium_stream, method_t.is_sodium_aead] at hm; done)
        | (simp only [hm3]
           rw [if_neg (by simp), if_pos (Ne.symm hl)]
           rfl)
  · intro hm
    unfold set_iv
    rw [h]
    simp only [hm]
    rw [if_neg (by simp)]

theorem set_iv_spec_witness :
    (set_iv .evp triv_gb s_chacha20sod [0]).1 = .INVALID_PARAM := by
  have h := (set_iv_spec .evp triv_gb s_chacha20sod
      ⟨"chacha20", .EN_CIMT_LIBSODIUM_CHACHA20, none, "CHACHA20", EN_CIFT_NONE⟩
      [0] (by decide)).2.1 (by decide) (by decide)
  exact h

theorem close_counterexample :
    s_dirty.interface_.isSome = true ∧
    s_dirty.last_errorno_ = -1 ∧
    s_dirty.iv_ = List.replicate 16 0 ∧
    (close s_dirty).1 = .OK ∧
    (close s_dirty).2.iv_ ≠ [] ∧
    (close s_dirty).2.last_errorno_ ≠ s_dirty.last_errorno_ := by
  decide

/-- C4 (amended): `close` on an initialized session returns `OK`, drops the
descriptor reference, releases the back-end contexts (for the CIPHER method),
sets `last_errorno_` to 0, and leaves the iv buffer unchanged (it is not
cleared); a second `close` on the now-empty session returns `NOT_INITED` and
changes nothing (it rewrites `last_errorno_` with the 0 already there). -/
theorem close_spec (s : cipher_state) (i : cipher_interface_info_t)
    (h : s.interface_ = some i)
    (hm : i.method = .EN_CIMT_XXTEA ∨ i.method = .EN_CIMT_CIPHER ∨
      i.method.is_sodium_stream = true ∨ i.method.is_sodium_aead = true) :
    (close s).1 = .OK ∧
    (close s).2.interface_ = none ∧
    (close s).2.last_errorno_ = 0 ∧
    (close s).2.iv_ = s.iv_ ∧
    (i.method = .EN_CIMT_CIPHER → (close s).2.enc_ctx = none ∧ (close s).2.dec_ctx = none) ∧
    close ((close s).2) = (.NOT_INITED, (close s).2) := by
  have hclose : close s =
      (.OK, { s with
              interface_ := none,
              last_errorno_ := 0,
              enc_ctx := (if i.method = .EN_CIMT_CIPHER then none else s.enc_ctx),
              dec_ctx := (if i.method = .EN_CIMT_CIPHER then none else s.dec_ctx) }) := by
    unfold close close_with_cipher
    rw [h]
    cases hm3 : i.method <;>
      first
        | (simp [hm3, method_t.is_sodium_stream, method_t.is_sodium_aead] at hm; done)
        | simp [hm3, setup_errorno]
  rw [hclose]
  refine ⟨rfl, rfl, rfl, rfl, ?_, ?_⟩
  · intro hc
    simp [hc]
  · unfold close
    rfl

theorem close_spec_witness :
    (close s_dirty).1 = .OK ∧
    (close s_dirty).2.interface_ = none ∧
    (close s_dirty).2.last_errorno_ = 0 ∧
    (close s_dirty).2.iv_ = s_dirty.iv_ ∧
    ((cipher_interface_info_t.mk "chacha20" .EN_CIMT_LIBSODIUM_CHACHA20 none "CHACHA20"
        EN_CIFT_NONE).method = .EN_CIMT_CIPHER →
      (close s_dirty).2.enc_ctx = none ∧ (close s_dirty).2.dec_ctx = none) ∧
    close ((close s_dirty).2) = (.NOT_INITED, (close s_dirty).2) :=
  close_spec s_dirty
    ⟨"chacha20", .EN_CIMT_LIBSODIUM_CHACHA20, none, "CHACHA20", EN_CIFT_NONE⟩
    (by decide) (by decide)

/-! ### Theorems: AEAD API guards (C2) -/

/-- C2: on an initialized session, `encrypt`/`decrypt` on an AEAD descriptor
return `MUST_CALL_AEAD_API`, and `encrypt_aead`/`decrypt_aead` on a non-AEAD
descriptor return `MUST_NOT_CALL_AEAD_API` — in all four cases with the
session state unchanged, nothing written, and a result independent of both
back-ends (the back-end parameters are universally quantified and absent from
the right-hand sides), i.e. without dispatching to any back-end. -/
theorem aead_api_guard (fl : flavor_t) (b : generic_backend_t) (sb : sodium_backend_t)
    (s : cipher_state) (i : cipher_interface_info_t)
    (input : Option (List Nat)) (olen : Option Nat) (ad : Option (List Nat))
    (tag_len : Nat) (tag : List Nat)
    (h : s.interface_ = some i) (hlive : i.method ≠ .EN_CIMT_INVALID) :
    (has_flag i.flags EN_CIFT_AEAD = true →
      encrypt fl b sb s input olen = ⟨.MUST_CALL_AEAD_API, s, [], olen⟩ ∧
      decrypt fl b sb s input olen = ⟨.MUST_CALL_AEAD_API, s, [], olen⟩) ∧
    (has_flag i.flags EN_CIFT_AEAD = false →
      encrypt_aead fl b sb s input olen ad tag_len
        = ⟨.MUST_NOT_CALL_AEAD_API, s, [], olen, []⟩ ∧
      decrypt_aead fl b sb s input olen ad tag = ⟨.MUST_NOT_CALL_AEAD_API, s, [], olen⟩) := by
  have hiae : is_aead s = has_flag i.flags EN_CIFT_AEAD := by simp [is_aead, h]
  constructor
  · intro ha
    constructor
    · simp only [encrypt, h]
      rw [if_neg hlive, if_pos (show is_aead s = true by rw [hiae]; exact ha)]
    · simp only [decrypt, h]
      rw [if_neg hlive, if_pos (show is_aead s = true by rw [hiae]; exact ha)]
  · intro ha
    constructor
    · simp only [encrypt_aead, h]
      rw [if_neg hlive, if_pos (show ¬ is_aead s = true by rw [hiae, ha]; simp)]
    · simp only [decrypt_aead, h]
      rw [if_neg hlive, if_pos (show ¬ is_aead s = true by rw [hiae, ha]; simp)]

theorem aead_api_guard_witness :
    (has_flag ((cipher_interface_info_t.mk "aes-256-gcm" .EN_CIMT_CIPHER none "AES-256-GCM"
        (EN_CIFT_AEAD ||| EN_CIFT_VARIABLE_IV_LEN)).flags) EN_CIFT_AEAD = true →
      encrypt .evp triv_gb triv_sb s_gcm (some [1, 2]) (some 20)
        = ⟨.MUST_CALL_AEAD_API, s_gcm, [], some 20⟩ ∧
      decrypt .evp triv_gb triv_sb s_gcm (some [1, 2]) (some 20)
        = ⟨.MUST_CALL_AEAD_API, s_gcm, [], some 20⟩) ∧
    (has_flag ((cipher_interface_info_t.mk "aes-256-gcm" .EN_CIMT_CIPHER none "AES-256-GCM"
        (EN_CIFT_AEAD ||| EN_CIFT_VARIABLE_IV_LEN)).flags) EN_CIFT_AEAD = false →
      encrypt_aead .evp triv_gb triv_sb s_gcm (some [1, 2]) (some 20) none 16
        = ⟨.MUST_NOT_CALL_AEAD_API, s_gcm, [], some 20, []⟩ ∧
      decrypt_aead .evp triv_gb triv_sb s_gcm (some [1, 2]) (some 20) none
          (List.replicate 16 0)
        = ⟨.MUST_NOT_CALL_AEAD_API, s_gcm, [], some 20⟩) :=
  aead_api_guard .evp triv_gb triv_sb s_gcm
    ⟨"aes-256-gcm", .EN_CIMT_CIPHER, none, "AES-256-GCM",
      EN_CIFT_AEAD ||| EN_CIFT_VARIABLE_IV_LEN⟩
    (some [1, 2]) (some 20) none 16 (List.replicate 16 0) (by decide) (by decide)

/-! ### Theorems: set_key (C6) -/

theorem set_key_mbedtls_counterexample :
    get_key_bits triv_gb s_cbc_mbt = 128 ∧
    (set_key .mbedtls triv_gb s_cbc_mbt (List.replicate 8 0) 64).1 = .OK ∧
    (set_key .mbedtls triv_gb s_cbc_mbt (List.replicate 8 0) 64).1 ≠ .INVALID_PARAM := by
  decide

/-- C6 (amended): for a `CIPHER`-method session the short-key guard exists
only in the EVP-flavor build (`key_bitlen < key_bits()` gives
`INVALID_PARAM`); the mbedTLS flavor hands the key straight to the back-end
and never returns `INVALID_PARAM`.  For XXTEA and sodium methods `set_key`
always returns `OK` and copies `min(key_bitlen/8, capacity)` bytes into the
respective key buffer (capacity 16 for XXTEA, 32 for sodium). -/
theorem set_key_spec (fl : flavor_t) (b : generic_backend_t) (s : cipher_state)
    (i : cipher_interface_info_t) (key : List Nat) (key_bitlen : Nat)
    (h : s.interface_ = some i) :
    (fl = .evp → i.method = .EN_CIMT_CIPHER → key_bitlen < get_key_bits b s →
      (set_key fl b s key key_bitlen).1 = .INVALID_PARAM) ∧
    (fl = .mbedtls → i.method = .EN_CIMT_CIPHER →
      (set_key fl b s key key_bitlen).1 ≠ .INVALID_PARAM) ∧
    (i.method = .EN_CIMT_XXTEA →
      set_key fl b s key key_bitlen =
        (.OK, { s with
                last_errorno_ := 0,
                xxtea_key := xxtea_setup_key (key.take (min (key_bitlen / 8) 16) ++
                  List.replicate (16 - (key.take (min (key_bitlen / 8) 16)).length) 0) })) ∧
    ((i.method.is_sodium_stream = true ∨ i.method.is_sodium_aead = true) →
      set_key fl b s key key_bitlen =
        (.OK, { s with
                last_errorno_ := 0,
                libsodium_key := key.take (min (key_bitlen / 8) 32) ++
                  s.libsodium_key.drop (key.take (min (key_bitlen / 8) 32)).length })) := by
  refine ⟨?_, ?_, ?_, ?_⟩
  · intro hfl hm hlt
    subst hfl
    simp only [set_key, h, hm]
    rw [if_pos hlt]
    rfl
  · intro hfl hm
    subst hfl
    simp only [set_key, h, hm]
    split_ifs <;> simp [setup_errorno]
  · intro hm
    have hn : (if key_bitlen ≥ 16 * 8 then 16 else key_bitlen / 8)
        = min (key_bitlen / 8) 16 := by split <;> omega
    simp only [set_key, h, hm, hn]
    rfl
  · intro hm
    have hn : (if key_bitlen ≥ libsodium_key_capacity * 8 then libsodium_key_capacity
        else key_bitlen / 8) = min (key_bitlen / 8) 32 := by
      unfold libsodium_key_capacity
      split <;> omega
    cases hm3 : i.method <;>
      first
        | (simp [hm3, method_t.is_sodium_stream, method_t.is_sodium_aead] at hm; done)
        | (simp only [set_key, h, hm3, hn]; rfl)

theorem set_key_spec_witness :
    ((flavor_t.evp = flavor_t.evp) → (method_t.EN_CIMT_CIPHER = method_t.EN_CIMT_CIPHER) →
      64 < get_key_bits triv_gb s_cbc_evp →
      (set_key .evp triv_gb s_cbc_evp (List.replicate 8 0) 64).1 = .INVALID_PARAM) ∧
    64 < get_key_bits triv_gb s_cbc_evp ∧
    (set_key .evp triv_gb s_cbc_evp (List.replicate 8 0) 64).1 = .INVALID_PARAM := by
  have h := set_key_spec .evp triv_gb s_cbc_evp
    ⟨"aes-128-cbc", .EN_CIMT_CIPHER, none, "AES-128-CBC",
      EN_CIFT_ENCRYPT_NO_PADDING ||| EN_CIFT_DECRYPT_NO_PADDING⟩
    (List.replicate 8 0) 64 (by decide)
  refine ⟨fun _ _ => h.1 rfl rfl, by decide, h.1 rfl rfl (by decide)⟩

/-! ### Theorems: output-length out-parameter behavior (C10) -/

/-- C10: for every sodium stream-cipher method, `encrypt` and `decrypt` never
write the output-length out-parameter — on every path, OK included, it keeps
the caller's value; whereas the XXTEA and generic-CIPHER paths set it to the
number of bytes produced whenever they return OK. -/
theorem sodium_stream_olen (fl : flavor_t) (b : generic_backend_t) (sb : sodium_backend_t)
    (s : cipher_state) (i : cipher_interface_info_t)
    (input : Option (List Nat)) (olen : Option Nat) (h : s.interface_ = some i) :
    (i.method.is_sodium_stream = true →
      (encrypt fl b sb s input olen).olen = olen ∧
      (decrypt fl b sb s input olen).olen = olen) ∧
    ((i.method = .EN_CIMT_XXTEA ∨ i.method = .EN_CIMT_CIPHER) →
      ((encrypt fl b sb s input olen).code = .OK →
        (encrypt fl b sb s input olen).olen
          = some (encrypt fl b sb s input olen).output.length) ∧
      ((decrypt fl b sb s input olen).code = .OK →
        (decrypt fl b sb s input olen).olen
          = some (decrypt fl b sb s input olen).output.length)) := by
  constructor
  · intro hm
    constructor <;>
      (cases hm3 : i.method <;>
        first
          | (simp [hm3, method_t.is_sodium_stream] at hm; done)
          | (simp only [encrypt, decrypt, h, hm3]
             repeat' split
             all_goals rfl))
  · intro hm
    constructor <;>
      (cases hm3 : i.method <;>
        first
          | (simp [hm3] at hm; done)
          | (simp only [encrypt, decrypt, h, hm3]
             repeat' split
             all_goals (intro hc; first | rfl | simp at hc)))

theorem sodium_stream_olen_witness :
    (encrypt .evp triv_gb triv_sb s_chacha20sod (some [5, 6]) (some 9)).olen = some 9 ∧
    (decrypt .evp triv_gb triv_sb s_chacha20sod (some [5, 6]) (some 9)).olen = some 9 :=
  (sodium_stream_olen .evp triv_gb triv_sb s_chacha20sod
    ⟨"chacha20", .EN_CIMT_LIBSODIUM_CHACHA20, none, "CHACHA20", EN_CIFT_NONE⟩
    (some [5, 6]) (some 9) (by decide)).1 (by decide)

/-! ### Theorems: sodium stream iv layout (C7) -/

/-- Little-endian value of a byte list. -/
def le_bytes : List Nat → Nat
  | [] => 0
  | b :: rest => b + 256 * le_bytes rest

theorem lor_shift_add (a b k : Nat) (h : a < 2 ^ k) : a ||| (b <<< k) = 2 ^ k * b + a := by
  apply Nat.eq_of_testBit_eq
  intro i
  rw [Nat.testBit_lor, Nat.testBit_shiftLeft, Nat.testBit_mul_pow_two_add b h i]
  by_cases hik : i < k
  · simp [hik, Nat.not_le.mpr hik]
  · have hk : k ≤ i := Nat.le_of_not_lt hik
    have ha : Nat.testBit a i = false :=
      Nat.testBit_lt_two_pow (lt_of_lt_of_le h (Nat.pow_le_pow_right (by norm_num) hk))
    simp [hik, hk, ha]

theorem libsodium_counter_le (iv : List Nat) (h8 : 8 ≤ iv.length)
    (hb : ∀ x ∈ iv.take 8, x < 256) :
    libsodium_get_counter iv = le_bytes (iv.take 8) := by
  rcases iv with _ | ⟨a0, _ | ⟨a1, _ | ⟨a2, _ | ⟨a3, _ | ⟨a4, _ | ⟨a5, _ | ⟨a6, _ | ⟨a7,
    rest⟩⟩⟩⟩⟩⟩⟩⟩ <;> simp only [List.length] at h8 <;> try omega
  have b0 : a0 < 256 := hb a0 (by simp)
  have b1 : a1 < 256 := hb a1 (by simp)
  have b2 : a2 < 256 := hb a2 (by simp)
  have b3 : a3 < 256 := hb a3 (by simp)
  have b4 : a4 < 256 := hb a4 (by simp)
  have b5 : a5 < 256 := hb a5 (by simp)
  have b6 : a6 < 256 := hb a6 (by simp)
  have b7 : a7 < 256 := hb a7 (by simp)
  show ((a4 ||| (a5 <<< 8) ||| (a6 <<< 16) ||| (a7 <<< 24)) <<< 32) |||
      (a0 ||| (a1 <<< 8) ||| (a2 <<< 16) ||| (a3 <<< 24))
    = le_bytes [a0, a1, a2, a3, a4, a5, a6, a7]
  have e1 : a0 ||| (a1 <<< 8) = 2 ^ 8 * a1 + a0 := lor_shift_add _ _ _ (by norm_num; omega)
  have e2 : a0 ||| (a1 <<< 8) ||| (a2 <<< 16) = 2 ^ 16 * a2 + (2 ^ 8 * a1 + a0) := by
    rw [e1]; exact lor_shift_add _ _ _ (by norm_num; omega)
  have e3 : a0 ||| (a1 <<< 8) ||| (a2 <<< 16) ||| (a3 <<< 24)
      = 2 ^ 24 * a3 + (2 ^ 16 * a2 + (2 ^ 8 * a1 + a0)) := by
    rw [e2]; exact lor_shift_add _ _ _ (by norm_num; omega)
  have f1 : a4 ||| (a5 <<< 8) = 2 ^ 8 * a5 + a4 := lor_shift_add _ _ _ (by norm_num; omega)
  have f2 : a4 ||| (a5 <<< 8) ||| (a6 <<< 16) = 2 ^ 16 * a6 + (2 ^ 8 * a5 + a4) := by
    rw [f1]; exact lor_shift_add _ _ _ (by norm_num; omega)
  have f3 : a4 ||| (a5 <<< 8) ||| (a6 <<< 16) ||| (a7 <<< 24)
      = 2 ^ 24 * a7 + (2 ^ 16 * a6 + (2 ^ 8 * a5 + a4)) := by
    rw [f2]; exact lor_shift_add _ _ _ (by norm_num; omega)
  rw [Nat.lor_comm, e3, f3, lor_shift_add _ _ 32 (by norm_num; omega)]
  simp only [le_bytes]
  ring_nf

theorem xchacha20_stream_counterexample :
    s_xchacha20.interface_.map (fun i => i.method) = some .EN_CIMT_LIBSODIUM_XCHACHA20 ∧
    s_xchacha20.iv_.length = get_iv_size triv_gb s_xchacha20 ∧
    (encrypt .evp triv_gb triv_sb s_xchacha20 (some [1, 2, 3]) (some 4)).code = .NOT_INITED ∧
    (encrypt .evp triv_gb triv_sb s_xchacha20 (some [1, 2, 3]) (some 4)).output = [] ∧
    (decrypt .evp triv_gb triv_sb s_xchacha20 (some [1, 2, 3]) (some 4)).code = .NOT_INITED ∧
    (decrypt .evp triv_gb triv_sb s_xchacha20 (some [1, 2, 3]) (some 4)).output = [] := by
  decide

/-- C7 (amended): for the reachable sodium stream methods (chacha20,
chacha20-ietf, salsa20, xsalsa20 — the xchacha20 stream block of the source is
unreachable dead code and that method falls to the `default:` branch),
`encrypt` and `decrypt` XOR the input against the keystream obtained from the
counter read little-endian from iv[0..8] (the 64-bit value `le_bytes`, whose
high 32-bit word comes from bytes 4..8) and from the nonce iv[8..] passed
verbatim. -/
theorem sodium_stream_counter_nonce (fl : flavor_t) (b : generic_backend_t)
    (sb : sodium_backend_t) (s : cipher_state) (i : cipher_interface_info_t)
    (p : List Nat) (olen : Option Nat)
    (h : s.interface_ = some i)
    (hm : i.method = .EN_CIMT_LIBSODIUM_CHACHA20 ∨ i.method = .EN_CIMT_LIBSODIUM_CHACHA20_IETF ∨
      i.method = .EN_CIMT_LIBSODIUM_SALSA20 ∨ i.method = .EN_CIMT_LIBSODIUM_XSALSA20)
    (haead : has_flag i.flags EN_CIFT_AEAD = false)
    (hiv : s.iv_.length = get_iv_size b s)
    (hvalid : crypt_args_invalid (some p) olen (get_block_size b s) = false)
    (hb : ∀ x ∈ s.iv_.take 8, x < 256) :
    (encrypt fl b sb s (some p) olen).output =
      xor_ks (sb.ks i.method s.libsodium_key (s.iv_.drop 8) (le_bytes (s.iv_.take 8))) 0 p ∧
    (decrypt fl b sb s (some p) olen).output =
      xor_ks (sb.ks i.method s.libsodium_key (s.iv_.drop 8) (le_bytes (s.iv_.take 8))) 0 p := by
  have hpad : pad_iv b s = s := by
    simp only [pad_iv, h]
    rw [if_neg]
    intro hc
    exact absurd hc.2.2 (by omega)
  have hlen8 : 8 ≤ s.iv_.length := by
    rw [hiv]
    simp only [get_iv_size, h]
    rcases hm with hm | hm | hm | hm <;>
      simp [hm, LIBSODIUM_COUNTER_SIZE, chacha20_NONCEBYTES, chacha20_ietf_NONCEBYTES,
        salsa20_NONCEBYTES, xsalsa20_NONCEBYTES]
  have hctr := libsodium_counter_le s.iv_ hlen8 hb
  have hia : is_aead s = false := by simp [is_aead, h, haead]
  constructor <;>
    (rcases hm with hm | hm | hm | hm <;>
      (simp only [encrypt, decrypt, h]
       rw [if_neg (by simp [hm]), if_neg (by simp [hia]), if_neg (by simp [hvalid])]
       simp only [hm, hpad, Option.getD]
       rw [← hctr]
       split <;> rfl))

theorem sodium_stream_counter_nonce_witness :
    (encrypt .evp triv_gb triv_sb s_chacha20sod (some [9, 9]) (some 3)).output =
      xor_ks (triv_sb.ks .EN_CIMT_LIBSODIUM_CHACHA20 s_chacha20sod.libsodium_key
        (s_chacha20sod.iv_.drop 8) (le_bytes (s_chacha20sod.iv_.take 8))) 0 [9, 9] ∧
    (decrypt .evp triv_gb triv_sb s_chacha20sod (some [9, 9]) (some 3)).output =
      xor_ks (triv_sb.ks .EN_CIMT_LIBSODIUM_CHACHA20 s_chacha20sod.libsodium_key
        (s_chacha20sod.iv_.drop 8) (le_bytes (s_chacha20sod.iv_.take 8))) 0 [9, 9] :=
  sodium_stream_counter_nonce .evp triv_gb triv_sb s_chacha20sod
    ⟨"chacha20", .EN_CIMT_LIBSODIUM_CHACHA20, none, "CHACHA20", EN_CIFT_NONE⟩
    [9, 9] (some 3) (by decide) (by decide) (by decide) (by decide) (by decide) (by decide)

/-! ### XXTEA inversion -/

theorem msub32_cancel (a m : Nat) (ha : a < M32) : msub32 ((a + m) % M32) m = a := by
  unfold msub32 M32 at *
  omega

theorem xxtea_enc_main_length (key : List Nat) (sum e : Nat) :
    ∀ (vs : List Nat) (p z yl : Nat),
      (xxtea_enc_main key sum e p z vs yl).2.length = vs.length
  | [], _, _, _ => rfl
  | [_], _, _, _ => rfl
  | x :: y :: rest, p, z, yl => by
      simp only [xxtea_enc_main, List.length_cons]
      rw [xxtea_enc_main_length key sum e (y :: rest) (p + 1)
        ((x + xxtea_mx key sum e p y z) % M32) yl]
      simp

theorem xxtea_enc_main_bound (key : List Nat) (sum e : Nat) :
    ∀ (vs : List Nat) (p z yl : Nat),
      ∀ x ∈ (xxtea_enc_main key sum e p z vs yl).2, x < M32
  | [], _, _, _ => by intro x hx; simp [xxtea_enc_main] at hx
  | [v], p, z, yl => by
      intro x hx
      simp only [xxtea_enc_main, List.mem_singleton] at hx
      subst hx
      exact Nat.mod_lt _ (by norm_num [M32])
  | v :: w :: rest, p, z, yl => by
      intro x hx
      simp only [xxtea_enc_main, List.mem_cons] at hx
      rcases hx with rfl | hx
      · exact Nat.mod_lt _ (by norm_num [M32])
      · exact xxtea_enc_main_bound key sum e (w :: rest) (p + 1)
          ((v + xxtea_mx key sum e p w z) % M32) yl x hx

theorem xxtea_enc_main_fst (key : List Nat) (sum e : Nat) :
    ∀ (vs : List Nat) (p z yl : Nat), vs ≠ [] →
      (xxtea_enc_main key sum e p z vs yl).1
        = (xxtea_enc_main key sum e p z vs yl).2.getLastD 0
  | [], _, _, _ => fun hne => absurd rfl hne
  | [v], p, z, yl => fun _ => rfl
  | v :: w :: rest, p, z, yl => fun _ => by
      simp only [xxtea_enc_main]
      have ih := xxtea_enc_main_fst key sum e (w :: rest) (p + 1)
        ((v + xxtea_mx key sum e p w z) % M32) yl (by simp)
      rw [ih]
      have hne : (xxtea_enc_main key sum e (p + 1)
          ((v + xxtea_mx key sum e p w z) % M32) (w :: rest) yl).2 ≠ [] := by
        intro hcon
        have := xxtea_enc_main_length key sum e (w :: rest) (p + 1)
          ((v + xxtea_mx key sum e p w z) % M32) yl
        rw [hcon] at this
        simp at this
      rcases List.exists_cons_of_ne_nil hne with ⟨a, l, hl⟩
      rw [hl]
      simp [List.getLastD_cons]

theorem xxtea_main_inverse (key : List Nat) (sum e : Nat) :
    ∀ (vs : List Nat) (p z yl : Nat), (∀ x ∈ vs, x < M32) →
      xxtea_dec_main key sum e p z (xxtea_enc_main key sum e p z vs yl).2 yl = vs
  | [], _, _, _ => fun _ => rfl
  | [v], p, z, yl => by
      intro hb
      simp only [xxtea_enc_main, xxtea_dec_main]
      rw [msub32_cancel v _ (hb v (by simp))]
  | v :: w :: rest, p, z, yl => by
      intro hb
      have hb2 : ∀ a ∈ w :: rest, a < M32 := fun a ha => hb a (by simp [ha])
      have ih := xxtea_main_inverse key sum e (w :: rest) (p + 1)
        ((v + xxtea_mx key sum e p w z) % M32) yl hb2
      simp only [xxtea_enc_main]
      have hne : (xxtea_enc_main key sum e (p + 1)
          ((v + xxtea_mx key sum e p w z) % M32) (w :: rest) yl).2 ≠ [] := by
        intro hcon
        have := xxtea_enc_main_length key sum e (w :: rest) (p + 1)
          ((v + xxtea_mx key sum e p w z) % M32) yl
        rw [hcon] at this
        simp at this
      rcases List.exists_cons_of_ne_nil hne with ⟨a, l, hl⟩
      rw [hl]
      simp only [xxtea_dec_main]
      rw [← hl, ih]
      simp only [List.headD_cons]
      rw [msub32_cancel v _ (hb v (by simp))]

theorem xxtea_round_length (key : List Nat) (sum : Nat) (v : List Nat) :
    (xxtea_enc_round key sum v).length = v.length := by
  unfold xxtea_enc_round
  split
  · rfl
  · rename_i hlen
    simp only [List.length_append, List.length_singleton]
    rw [xxtea_enc_main_length]
    simp only [List.length_dropLast]
    omega

theorem xxtea_round_bound (key : List Nat) (sum : Nat) (v : List Nat)
    (hb : ∀ x ∈ v, x < M32) : ∀ x ∈ xxtea_enc_round key sum v, x < M32 := by
  unfold xxtea_enc_round
  split
  · exact hb
  · intro x hx
    rcases List.mem_append.mp hx with hx | hx
    · exact xxtea_enc_main_bound key sum _ _ _ _ _ x hx
    · rw [List.mem_singleton.mp hx]
      exact Nat.mod_lt _ (by norm_num [M32])

theorem xxtea_enc_round_concat (key : List Nat) (sum : Nat) (vs : List Nat) (L : Nat)
    (hvs : vs ≠ []) :
    xxtea_enc_round key sum (vs ++ [L]) =
      (xxtea_enc_main key sum ((sum >>> 2) &&& 3) 0 L vs L).2 ++
        [(L + xxtea_mx key sum ((sum >>> 2) &&& 3) vs.length
           ((xxtea_enc_main key sum ((sum >>> 2) &&& 3) 0 L vs L).2.headD 0)
           (xxtea_enc_main key sum ((sum >>> 2) &&& 3) 0 L vs L).1) % M32] := by
  have hpos : 1 ≤ vs.length := List.length_pos.mpr hvs
  unfold xxtea_enc_round
  rw [if_neg (by simp only [List.length_append, List.length_singleton]; omega)]
  rw [List.dropLast_concat, List.getLastD_concat]
  simp only [List.length_append, List.length_singleton, Nat.add_sub_cancel]

theorem xxtea_dec_round_concat (key : List Nat) (sum : Nat) (ws : List Nat) (Lx : Nat)
    (hws : ws ≠ []) :
    xxtea_dec_round key sum (ws ++ [Lx]) =
      xxtea_dec_main key sum ((sum >>> 2) &&& 3) 0
        (msub32 Lx (xxtea_mx key sum ((sum >>> 2) &&& 3) ws.length
          (ws.headD 0) (ws.getLastD 0))) ws
        (msub32 Lx (xxtea_mx key sum ((sum >>> 2) &&& 3) ws.length
          (ws.headD 0) (ws.getLastD 0))) ++
      [msub32 Lx (xxtea_mx key sum ((sum >>> 2) &&& 3) ws.length
        (ws.headD 0) (ws.getLastD 0))] := by
  have hpos : 1 ≤ ws.length := List.length_pos.mpr hws
  unfold xxtea_dec_round
  rw [if_neg (by simp only [List.length_append, List.length_singleton]; omega)]
  rw [List.dropLast_concat, List.getLastD_concat]
  simp only [List.length_append, List.length_singleton, Nat.add_sub_cancel]

theorem xxtea_round_inverse (key : List Nat) (sum : Nat) (v : List Nat)
    (h2 : 2 ≤ v.length) (hb : ∀ x ∈ v, x < M32) :
    xxtea_dec_round key sum (xxtea_enc_round key sum v) = v := by
  induction v using List.reverseRecOn with
  | nil => simp at h2
  | append_singleton vs L _ =>
    have hvs : vs ≠ [] := by
      intro hcon
      subst hcon
      simp at h2
    have hbvs : ∀ x ∈ vs, x < M32 := fun x hx => hb x (by simp [hx])
    have hbL : L < M32 := hb L (by simp)
    have hlenmain := xxtea_enc_main_length key sum ((sum >>> 2) &&& 3) vs 0 L L
    have hwsne : (xxtea_enc_main key sum ((sum >>> 2) &&& 3) 0 L vs L).2 ≠ [] := by
      intro hcon
      rw [hcon] at hlenmain
      exact hvs (List.eq_nil_of_length_eq_zero hlenmain.symm)
    have hfst := xxtea_enc_main_fst key sum ((sum >>> 2) &&& 3) vs 0 L L hvs
    rw [xxtea_enc_round_concat key sum vs L hvs]
    rw [xxtea_dec_round_concat key sum _ _ hwsne]
    rw [hlenmain, ← hfst]
    rw [msub32_cancel L _ hbL]
    rw [xxtea_main_inverse key sum ((sum >>> 2) &&& 3) vs 0 L L hbvs]

theorem xxtea_iter_length (key : List Nat) :
    ∀ (q : Nat) (v : List Nat), (xxtea_enc_iter key q v).length = v.length
  | 0, _ => rfl
  | q + 1, v => by
      simp only [xxtea_enc_iter]
      rw [xxtea_round_length, xxtea_iter_length key q v]

theorem xxtea_iter_bound (key : List Nat) :
    ∀ (q : Nat) (v : List Nat), (∀ x ∈ v, x < M32) →
      ∀ x ∈ xxtea_enc_iter key q v, x < M32
  | 0, _, hb => hb
  | q + 1, v, hb => by
      simp only [xxtea_enc_iter]
      exact xxtea_round_bound key _ _ (xxtea_iter_bound key q v hb)

theorem xxtea_iter_inverse (key : List Nat) :
    ∀ (q : Nat) (v : List Nat), (∀ x ∈ v, x < M32) →
      xxtea_dec_iter key q (xxtea_enc_iter key q v) = v
  | 0, _, _ => rfl
  | q + 1, v, hb => by
      simp only [xxtea_enc_iter, xxtea_dec_iter]
      by_cases h2 : 2 ≤ (xxtea_enc_iter key q v).length
      · rw [xxtea_round_inverse key _ _ h2 (xxtea_iter_bound key q v hb)]
        exact xxtea_iter_inverse key q v hb
      · have he : xxtea_enc_round key ((q + 1) * XXTEA_DELTA % M32) (xxtea_enc_iter key q v)
            = xxtea_enc_iter key q v := by
          unfold xxtea_enc_round
          rw [if_pos (by omega)]
        rw [he]
        have hd : xxtea_dec_round key ((q + 1) * XXTEA_DELTA % M32) (xxtea_enc_iter key q v)
            = xxtea_enc_iter key q v := by
          unfold xxtea_dec_round
          rw [if_pos (by omega)]
        rw [hd]
        exact xxtea_iter_inverse key q v hb

theorem btea_inverse (key v : List Nat) (hb : ∀ x ∈ v, x < M32) :
    btea_dec key (btea_enc key v) = v := by
  unfold btea_enc btea_dec
  rw [xxtea_iter_length]
  exact xxtea_iter_inverse key _ v hb

theorem btea_enc_length (key v : List Nat) : (btea_enc key v).length = v.length :=
  xxtea_iter_length key _ v

theorem btea_enc_bound (key v : List Nat) (hb : ∀ x ∈ v, x < M32) :
    ∀ x ∈ btea_enc key v, x < M32 :=
  xxtea_iter_bound key _ v hb

theorem bytes_to_words32_lt :
    ∀ b : List Nat, ∀ w ∈ bytes_to_words32 b, w < M32
  | [] => by intro w hw; simp [bytes_to_words32] at hw
  | [_] => by intro w hw; simp [bytes_to_words32] at hw
  | [_, _] => by intro w hw; simp [bytes_to_words32] at hw
  | [_, _, _] => by intro w hw; simp [bytes_to_words32] at hw
  | b0 :: b1 :: b2 :: b3 :: rest => by
      intro w hw
      simp only [bytes_to_words32, List.mem_cons] at hw
      rcases hw with rfl | hw
      · have h0 : b0 % 256 < 256 := Nat.mod_lt _ (by norm_num)
        have h1 : b1 % 256 < 256 := Nat.mod_lt _ (by norm_num)
        have h2 : b2 % 256 < 256 := Nat.mod_lt _ (by norm_num)
        have h3 : b3 % 256 < 256 := Nat.mod_lt _ (by norm_num)
        unfold M32
        omega
      · exact bytes_to_words32_lt rest w hw

theorem words_to_bytes32_length :
    ∀ w : List Nat, (words_to_bytes32 w).length = 4 * w.length
  | [] => rfl
  | w0 :: rest => by
      simp only [words_to_bytes32, List.length_cons]
      rw [words_to_bytes32_length rest]
      omega

theorem words_to_bytes32_lt :
    ∀ w : List Nat, ∀ x ∈ words_to_bytes32 w, x < 256
  | [] => by intro x hx; simp [words_to_bytes32] at hx
  | w0 :: rest => by
      intro x hx
      simp only [words_to_bytes32, List.mem_cons] at hx
      rcases hx with rfl | rfl | rfl | rfl | hx
      · exact Nat.mod_lt _ (by norm_num)
      · exact Nat.mod_lt _ (by norm_num)
      · exact Nat.mod_lt _ (by norm_num)
      · exact Nat.mod_lt _ (by norm_num)
      · exact words_to_bytes32_lt rest x hx

theorem words_bytes_roundtrip :
    ∀ b : List Nat, b.length % 4 = 0 → (∀ x ∈ b, x < 256) →
      words_to_bytes32 (bytes_to_words32 b) = b
  | [] => by intro _ _; rfl
  | [_] => by intro hlen _; simp at hlen
  | [_, _] => by intro hlen _; simp at hlen
  | [_, _, _] => by intro hlen _; simp at hlen
  | b0 :: b1 :: b2 :: b3 :: rest => by
      intro hlen hb
      have h0 : b0 < 256 := hb b0 (by simp)
      have h1 : b1 < 256 := hb b1 (by simp)
      have h2 : b2 < 256 := hb b2 (by simp)
      have h3 : b3 < 256 := hb b3 (by simp)
      have hrest : rest.length % 4 = 0 := by
        simp only [List.length_cons] at hlen
        omega
      have hbr : ∀ x ∈ rest, x < 256 := fun x hx => hb x (by simp [hx])
      simp only [bytes_to_words32, words_to_bytes32]
      rw [words_bytes_roundtrip rest hrest hbr]
      simp only [List.cons.injEq]
      refine ⟨by omega, by omega, by omega, by omega, trivial⟩

theorem bytes_words_roundtrip :
    ∀ w : List Nat, (∀ x ∈ w, x < M32) → bytes_to_words32 (words_to_bytes32 w) = w
  | [] => by intro _; rfl
  | w0 :: rest => by
      intro hb
      have h0 : w0 < M32 := hb w0 (by simp)
      have hbr : ∀ x ∈ rest, x < M32 := fun x hx => hb x (by simp [hx])
      simp only [words_to_bytes32, bytes_to_words32]
      rw [bytes_words_roundtrip rest hbr]
      simp only [List.cons.injEq]
      refine ⟨?_, trivial⟩
      unfold M32 at h0
      omega

/-- Round trip of the spec-modelled XXTEA primitive on word-aligned byte
strings. -/
theorem xxtea_bytes_roundtrip (key p : List Nat) (hlen : p.length % 4 = 0)
    (hb : ∀ x ∈ p, x < 256) :
    xxtea_decrypt_bytes key (xxtea_encrypt_bytes key p) = p := by
  unfold xxtea_encrypt_bytes xxtea_decrypt_bytes
  have hpad : xxtea_pad p = p := by
    unfold xxtea_pad
    have hz : (4 - p.length % 4) % 4 = 0 := by omega
    simp [hz]
  rw [hpad]
  have hwlt : ∀ x ∈ bytes_to_words32 p, x < M32 := bytes_to_words32_lt p
  have henclt : ∀ x ∈ btea_enc key (bytes_to_words32 p), x < M32 :=
    btea_enc_bound key _ hwlt
  have hclen : (words_to_bytes32 (btea_enc key (bytes_to_words32 p))).length % 4 = 0 := by
    rw [words_to_bytes32_length]
    omega
  have hpad2 : xxtea_pad (words_to_bytes32 (btea_enc key (bytes_to_words32 p)))
      = words_to_bytes32 (btea_enc key (bytes_to_words32 p)) := by
    unfold xxtea_pad
    have hz : (4 - (words_to_bytes32 (btea_enc key (bytes_to_words32 p))).length % 4) % 4
        = 0 := by omega
    simp [hz]
  rw [hpad2]
  rw [bytes_words_roundtrip _ henclt]
  rw [btea_inverse key _ hwlt]
  exact words_bytes_roundtrip p hlen hb

/-- Length of the spec-modelled XXTEA ciphertext: the zero-padded length. -/
theorem xxtea_encrypt_bytes_length (key p : List Nat) :
    (xxtea_encrypt_bytes key p).length = (xxtea_pad p).length := by
  unfold xxtea_encrypt_bytes
  rw [words_to_bytes32_length, btea_enc_length]
  have : ∀ b : List Nat, (bytes_to_words32 b).length = b.length / 4 := by
    intro b
    induction b using bytes_to_words32.induct with
    | case1 b0 b1 b2 b3 rest ih =>
        simp only [bytes_to_words32, List.length_cons]
        omega
    | case2 b hb =>
        cases b with
        | nil => simp [bytes_to_words32]
        | cons x xs =>
          cases xs with
          | nil => simp [bytes_to_words32]
          | cons y ys =>
            cases ys with
            | nil => simp [bytes_to_words32]
            | cons z zs =>
              cases zs with
              | nil => simp [bytes_to_words32]
              | cons u us => exact absurd rfl (hb x y z u us)
  rw [this]
  unfold xxtea_pad
  simp only [List.length_append, List.length_replicate]
  omega

/-- XOR-against-keystream is an involution. -/
theorem xor_ks_involution (f : Nat → Nat) :
    ∀ (i : Nat) (l : List Nat), xor_ks f i (xor_ks f i l) = l
  | _, [] => rfl
  | i, b :: rest => by
      simp only [xor_ks]
      rw [xor_ks_involution f (i + 1) rest]
      simp [Nat.xor_assoc]

/-- xor_ks preserves length. -/
theorem xor_ks_length (f : Nat → Nat) :
    ∀ (i : Nat) (l : List Nat), (xor_ks f i l).length = l.length
  | _, [] => rfl
  | i, b :: rest => by
      simp only [xor_ks, List.length_cons]
      rw [xor_ks_length f (i + 1) rest]

/-! ### pad_iv analysis -/

/-- The guard of the iv zero-padding step, as a proposition. -/
def pad_iv_cond (b : generic_backend_t) (s : cipher_state) : Prop :=
  match s.interface_ with
  | none => False
  | some i =>
      i.method.code ≥ method_t.EN_CIMT_CIPHER.code ∧
      ¬ has_flag i.flags EN_CIFT_VARIABLE_IV_LEN = true ∧
      s.iv_.length < get_iv_size b s

theorem pad_iv_cond_lt (b : generic_backend_t) (s : cipher_state) (h : pad_iv_cond b s) :
    s.iv_.length < get_iv_size b s := by
  unfold pad_iv_cond at h
  cases hi : s.interface_ <;> rw [hi] at h
  · exact h.elim
  · exact h.2.2

theorem pad_iv_spec (b : generic_backend_t) (s : cipher_state) :
    (¬ pad_iv_cond b s ∧ pad_iv b s = s) ∨
    (pad_iv_cond b s ∧
      pad_iv b s =
        { s with iv_ := s.iv_ ++ List.replicate (get_iv_size b s - s.iv_.length) 0 } ∧
      (pad_iv b s).iv_.length = get_iv_size b s) := by
  unfold pad_iv pad_iv_cond
  split
  · exact Or.inl ⟨fun hf => hf, rfl⟩
  · rename_i i heq
    by_cases hc : i.method.code ≥ method_t.EN_CIMT_CIPHER.code ∧
        ¬ has_flag i.flags EN_CIFT_VARIABLE_IV_LEN = true ∧
        s.iv_.length < get_iv_size b s
    · have hlt := hc.2.2
      right
      refine ⟨hc, ?_, ?_⟩
      · rw [if_pos hc, if_pos (by omega : get_iv_size b s ≠ 0)]
      · rw [if_pos hc, if_pos (by omega : get_iv_size b s ≠ 0)]
        simp
        omega
    · exact Or.inl ⟨hc, by rw [if_neg hc]⟩

theorem pad_state_interface (b : generic_backend_t) (s : cipher_state) (e : Int) :
    ({ pad_iv b s with last_errorno_ := e } : cipher_state).interface_ = s.interface_ := by
  rcases pad_iv_spec b s with ⟨_, h⟩ | ⟨_, h, _⟩ <;> rw [h] <;> rfl

theorem pad_state_block (b : generic_backend_t) (s : cipher_state) (e : Int) :
    get_block_size b { pad_iv b s with last_errorno_ := e } = get_block_size b s := by
  rcases pad_iv_spec b s with ⟨_, h⟩ | ⟨_, h, _⟩ <;> rw [h] <;> rfl

theorem pad_state_iv_size (b : generic_backend_t) (s : cipher_state) (e : Int) :
    get_iv_size b { pad_iv b s with last_errorno_ := e } = get_iv_size b s := by
  rcases pad_iv_spec b s with ⟨_, h⟩ | ⟨_, h, _⟩ <;> rw [h] <;> rfl

theorem pad_iv_stable (b : generic_backend_t) (s : cipher_state) (e : Int) :
    pad_iv b { pad_iv b s with last_errorno_ := e } = { pad_iv b s with last_errorno_ := e } := by
  rcases pad_iv_spec b s with ⟨hnc, hps⟩ | ⟨hc, hps, hlen⟩
  · rw [hps]
    rcases pad_iv_spec b { s with last_errorno_ := e } with ⟨_, h⟩ | ⟨hc2, _, _⟩
    · exact h
    · exact absurd hc2 hnc
  · rw [hps]
    rcases pad_iv_spec b
        { s with iv_ := s.iv_ ++ List.replicate (get_iv_size b s - s.iv_.length) 0,
                 last_errorno_ := e } with ⟨_, h⟩ | ⟨hc2, _, _⟩
    · exact h
    · exfalso
      have hlt := pad_iv_cond_lt _ _ hc2
      have hlt0 := pad_iv_cond_lt _ _ hc
      simp only [List.length_append, List.length_replicate] at hlt
      have hsz : get_iv_size b
          ({ s with iv_ := s.iv_ ++ List.replicate (get_iv_size b s - s.iv_.length) 0,
                    last_errorno_ := e } : cipher_state) = get_iv_size b s := rfl
      rw [hsz] at hlt
      omega

/-! ### Round-trip drivers (C1) -/

/-- Encrypt `p` with an exactly-sized output-length argument, then decrypt the
produced ciphertext on the resulting session the same way; yields the two
return codes and the final plaintext. -/
def enc_then_dec (fl : flavor_t) (b : generic_backend_t) (sb : sodium_backend_t)
    (s : cipher_state) (p : List Nat) : errc × errc × List Nat :=
  let r1 := encrypt fl b sb s (some p) (some (p.length + get_block_size b s))
  let r2 := decrypt fl b sb r1.st (some r1.output)
    (some (r1.output.length + get_block_size b r1.st))
  (r1.code, r2.code, r2.output)

/-- AEAD variant of `enc_then_dec`: encrypt with a 16-byte tag buffer and fixed
associated data `ad`, then decrypt with the tag produced by encryption. -/
def aead_enc_then_dec (fl : flavor_t) (b : generic_backend_t) (sb : sodium_backend_t)
    (s : cipher_state) (p : List Nat) (ad : Option (List Nat)) : errc × errc × List Nat :=
  let r1 := encrypt_aead fl b sb s (some p) (some (p.length + get_block_size b s)) ad 16
  let r2 := decrypt_aead fl b sb r1.st (some r1.output)
    (some (r1.output.length + get_block_size b r1.st)) ad r1.tag
  (r1.code, r2.code, r2.output)

theorem crypt_args_valid_exact (p : List Nat) (bs : Nat) (hp : p ≠ []) :
    crypt_args_invalid (some p) (some (p.length + bs)) bs = false := by
  unfold crypt_args_invalid
  have hlen : p.length ≠ 0 := by
    simpa using (List.length_pos.mpr hp).ne'
  simp [hlen]

theorem pad_iv_enc_ctx (b : generic_backend_t) (s : cipher_state) :
    (pad_iv b s).enc_ctx = s.enc_ctx := by
  rcases pad_iv_spec b s with ⟨_, h⟩ | ⟨_, h, _⟩ <;> rw [h]

theorem pad_iv_dec_ctx (b : generic_backend_t) (s : cipher_state) :
    (pad_iv b s).dec_ctx = s.dec_ctx := by
  rcases pad_iv_spec b s with ⟨_, h⟩ | ⟨_, h, _⟩ <;> rw [h]

theorem pad_iv_interface (b : generic_backend_t) (s : cipher_state) :
    (pad_iv b s).interface_ = s.interface_ := by
  rcases pad_iv_spec b s with ⟨_, h⟩ | ⟨_, h, _⟩ <;> rw [h]

theorem encrypt_xxtea_eq (fl : flavor_t) (b : generic_backend_t) (sb : sodium_backend_t)
    (s : cipher_state) (i : cipher_interface_info_t) (input : Option (List Nat))
    (olen : Option Nat)
    (h : s.interface_ = some i) (hm : i.method = .EN_CIMT_XXTEA)
    (haead : has_flag i.flags EN_CIFT_AEAD = false)
    (hvalid : crypt_args_invalid input olen (get_block_size b s) = false) :
    encrypt fl b sb s input olen =
      ⟨.OK, { pad_iv b s with last_errorno_ := 0 },
        xxtea_encrypt_bytes (pad_iv b s).xxtea_key (input.getD []),
        some (xxtea_encrypt_bytes (pad_iv b s).xxtea_key (input.getD [])).length⟩ := by
  simp only [encrypt, h]
  rw [if_neg (by simp [hm]), if_neg (show ¬ is_aead s = true by simp [is_aead, h, haead]),
    if_neg (by simp [hvalid])]
  simp only [hm]

theorem decrypt_xxtea_eq (fl : flavor_t) (b : generic_backend_t) (sb : sodium_backend_t)
    (s : cipher_state) (i : cipher_interface_info_t) (input : Option (List Nat))
    (olen : Option Nat)
    (h : s.interface_ = some i) (hm : i.method = .EN_CIMT_XXTEA)
    (haead : has_flag i.flags EN_CIFT_AEAD = false)
    (hvalid : crypt_args_invalid input olen (get_block_size b s) = false) :
    decrypt fl b sb s input olen =
      ⟨.OK, { pad_iv b s with last_errorno_ := 0 },
        xxtea_decrypt_bytes (pad_iv b s).xxtea_key (input.getD []),
        some (xxtea_decrypt_bytes (pad_iv b s).xxtea_key (input.getD [])).length⟩ := by
  simp only [decrypt, h]
  rw [if_neg (by simp [hm]), if_neg (show ¬ is_aead s = true by simp [is_aead, h, haead]),
    if_neg (by simp [hvalid])]
  simp only [hm]

theorem encrypt_stream_eq (fl : flavor_t) (b : generic_backend_t) (sb : sodium_backend_t)
    (s : cipher_state) (i : cipher_interface_info_t) (input : Option (List Nat))
    (olen : Option Nat)
    (h : s.interface_ = some i)
    (hm : i.method = .EN_CIMT_LIBSODIUM_CHACHA20 ∨ i.method = .EN_CIMT_LIBSODIUM_CHACHA20_IETF ∨
      i.method = .EN_CIMT_LIBSODIUM_SALSA20 ∨ i.method = .EN_CIMT_LIBSODIUM_XSALSA20)
    (haead : has_flag i.flags EN_CIFT_AEAD = false)
    (hvalid : crypt_args_invalid input olen (get_block_size b s) = false)
    (hres : sb.stream_res i.method = 0) :
    encrypt fl b sb s input olen =
      ⟨.OK, { pad_iv b s with last_errorno_ := 0 },
        xor_ks (sb.ks i.method (pad_iv b s).libsodium_key
          ((pad_iv b s).iv_.drop LIBSODIUM_COUNTER_SIZE)
          (libsodium_get_counter (pad_iv b s).iv_)) 0 (input.getD []), olen⟩ := by
  have hm0 : i.method ≠ .EN_CIMT_INVALID := by rcases hm with h | h | h | h <;> simp [h]
  simp only [encrypt, h]
  rw [if_neg (by simp [hm0]), if_neg (show ¬ is_aead s = true by simp [is_aead, h, haead]),
    if_neg (by simp [hvalid])]
  rcases hm with hm | hm | hm | hm <;>
    · simp only [hm]
      rw [hm] at hres
      rw [hres, if_neg (by simp)]

theorem decrypt_stream_eq (fl : flavor_t) (b : generic_backend_t) (sb : sodium_backend_t)
    (s : cipher_state) (i : cipher_interface_info_t) (input : Option (List Nat))
    (olen : Option Nat)
    (h : s.interface_ = some i)
    (hm : i.method = .EN_CIMT_LIBSODIUM_CHACHA20 ∨ i.method = .EN_CIMT_LIBSODIUM_CHACHA20_IETF ∨
      i.method = .EN_CIMT_LIBSODIUM_SALSA20 ∨ i.method = .EN_CIMT_LIBSODIUM_XSALSA20)
    (haead : has_flag i.flags EN_CIFT_AEAD = false)
    (hvalid : crypt_args_invalid input olen (get_block_size b s) = false)
    (hres : sb.stream_res i.method = 0) :
    decrypt fl b sb s input olen =
      ⟨.OK, { pad_iv b s with last_errorno_ := 0 },
        xor_ks (sb.ks i.method (pad_iv b s).libsodium_key
          ((pad_iv b s).iv_.drop LIBSODIUM_COUNTER_SIZE)
          (libsodium_get_counter (pad_iv b s).iv_)) 0 (input.getD []), olen⟩ := by
  have hm0 : i.method ≠ .EN_CIMT_INVALID := by rcases hm with h | h | h | h <;> simp [h]
  simp only [decrypt, h]
  rw [if_neg (by simp [hm0]), if_neg (show ¬ is_aead s = true by simp [is_aead, h, haead]),
    if_neg (by simp [hvalid])]
  rcases hm with hm | hm | hm | hm <;>
    · simp only [hm]
      rw [hm] at hres
      rw [hres, if_neg (by simp)]

theorem encrypt_cipher_evp_eq (b : generic_backend_t) (sb : sodium_backend_t)
    (s : cipher_state) (i : cipher_interface_info_t) (input : Option (List Nat))
    (olen : Option Nat) (ec : generic_ctx_t) (c : List Nat)
    (h : s.interface_ = some i) (hm : i.method = .EN_CIMT_CIPHER)
    (haead : has_flag i.flags EN_CIFT_AEAD = false)
    (hvalid : crypt_args_invalid input olen (get_block_size b s) = false)
    (hec : s.enc_ctx = some ec)
    (hos : b.enc_oneshot
      ⟨ec.key, (if (pad_iv b s).iv_.isEmpty then none else some (pad_iv b s).iv_),
        has_flag i.flags EN_CIFT_ENCRYPT_NO_PADDING, has_flag i.flags EN_CIFT_NO_FINISH,
        input.getD []⟩ = .ok c) :
    encrypt .evp b sb s input olen = ⟨.OK, pad_iv b s, c, some c.length⟩ := by
  simp only [encrypt, h]
  rw [if_neg (by simp [hm]), if_neg (show ¬ is_aead s = true by simp [is_aead, h, haead]),
    if_neg (by simp [hvalid])]
  simp only [hm]
  rw [show (pad_iv b s).enc_ctx = some ec from (pad_iv_enc_ctx b s).trans hec]
  simp only [hos]

theorem decrypt_cipher_evp_eq (b : generic_backend_t) (sb : sodium_backend_t)
    (s : cipher_state) (i : cipher_interface_info_t) (input : Option (List Nat))
    (olen : Option Nat) (dc : generic_ctx_t) (c : List Nat)
    (h : s.interface_ = some i) (hm : i.method = .EN_CIMT_CIPHER)
    (haead : has_flag i.flags EN_CIFT_AEAD = false)
    (hvalid : crypt_args_invalid input olen (get_block_size b s) = false)
    (hdc : s.dec_ctx = some dc)
    (hos : b.dec_oneshot
      ⟨dc.key, (if (pad_iv b s).iv_.isEmpty then none else some (pad_iv b s).iv_),
        has_flag i.flags EN_CIFT_DECRYPT_NO_PADDING, has_flag i.flags EN_CIFT_NO_FINISH,
        input.getD []⟩ = .ok c) :
    decrypt .evp b sb s input olen = ⟨.OK, pad_iv b s, c, some c.length⟩ := by
  simp only [decrypt, h]
  rw [if_neg (by simp [hm]), if_neg (show ¬ is_aead s = true by simp [is_aead, h, haead]),
    if_neg (by simp [hvalid])]
  simp only [hm]
  rw [show (pad_iv b s).dec_ctx = some dc from (pad_iv_dec_ctx b s).trans hdc]
  simp only [hos]

theorem encrypt_cipher_mbt_eq (b : generic_backend_t) (sb : sodium_backend_t)
    (s : cipher_state) (i : cipher_interface_info_t) (input : Option (List Nat))
    (olen : Option Nat) (ec : generic_ctx_t) (c : List Nat)
    (h : s.interface_ = some i) (hm : i.method = .EN_CIMT_CIPHER)
    (haead : has_flag i.flags EN_CIFT_AEAD = false)
    (hvalid : crypt_args_invalid input olen (get_block_size b s) = false)
    (hec : s.enc_ctx = some ec)
    (hsp : ¬(has_flag i.flags EN_CIFT_ENCRYPT_NO_PADDING = true ∧ b.is_cbc = true ∧
      b.set_padding_res ≠ 0))
    (hcr : b.mbt_crypt true (ec.key.map fun k => (k, ec.bits)) (pad_iv b s).iv_
      (input.getD []) = (0, c)) :
    encrypt .mbedtls b sb s input olen
      = ⟨.OK, { pad_iv b s with last_errorno_ := 0 }, c, some c.length⟩ := by
  simp only [encrypt, h]
  rw [if_neg (by simp [hm]), if_neg (show ¬ is_aead s = true by simp [is_aead, h, haead]),
    if_neg (by simp [hvalid])]
  simp only [hm]
  rw [show (pad_iv b s).enc_ctx = some ec from (pad_iv_enc_ctx b s).trans hec]
  simp only []
  rw [if_neg hsp, hcr, if_neg (by simp)]

theorem decrypt_cipher_mbt_eq (b : generic_backend_t) (sb : sodium_backend_t)
    (s : cipher_state) (i : cipher_interface_info_t) (input : Option (List Nat))
    (olen : Option Nat) (dc : generic_ctx_t) (c : List Nat)
    (h : s.interface_ = some i) (hm : i.method = .EN_CIMT_CIPHER)
    (haead : has_flag i.flags EN_CIFT_AEAD = false)
    (hvalid : crypt_args_invalid input olen (get_block_size b s) = false)
    (hdc : s.dec_ctx = some dc)
    (hsp : ¬(has_flag i.flags EN_CIFT_DECRYPT_NO_PADDING = true ∧ b.is_cbc = true ∧
      b.set_padding_res ≠ 0))
    (hcr : b.mbt_crypt false (dc.key.map fun k => (k, dc.bits)) (pad_iv b s).iv_
      (input.getD []) = (0, c)) :
    decrypt .mbedtls b sb s input olen
      = ⟨.OK, { pad_iv b s with last_errorno_ := 0 }, c, some c.length⟩ := by
  simp only [decrypt, h]
  rw [if_neg (by simp [hm]), if_neg (show ¬ is_aead s = true by simp [is_aead, h, haead]),
    if_neg (by simp [hvalid])]
  simp only [hm]
  rw [show (pad_iv b s).dec_ctx = some dc from (pad_iv_dec_ctx b s).trans hdc]
  simp only []
  rw [if_neg hsp, hcr, if_neg (by simp)]

theorem encrypt_aead_sodium_eq (fl : flavor_t) (b : generic_backend_t)
    (sb : sodium_backend_t) (s : cipher_state) (i : cipher_interface_info_t)
    (input : Option (List Nat)) (olen : Option Nat) (ad : Option (List Nat))
    (tag_len : Nat) (c tg : List Nat)
    (h : s.interface_ = some i) (hm : i.method.is_sodium_aead = true)
    (haead : has_flag i.flags EN_CIFT_AEAD = true)
    (hvalid : crypt_args_invalid input olen (get_block_size b s) = false)
    (htl : sodium_ABYTES ≤ tag_len)
    (hae : sb.aead_enc i.method (pad_iv b s).libsodium_key (pad_iv b s).iv_ (ad.getD [])
      (input.getD []) = (0, c, tg)) :
    encrypt_aead fl b sb s input olen ad tag_len
      = ⟨.OK, { pad_iv b s with last_errorno_ := 0 }, c, olen, tg⟩ := by
  have hm0 : i.method ≠ .EN_CIMT_INVALID := by
    cases hmm : i.method <;> simp [hmm, method_t.is_sodium_aead] at hm ⊢
  simp only [encrypt_aead, h]
  rw [if_neg (by simp [hm0]),
    if_neg (show ¬ ¬ is_aead s = true by simp [is_aead, h, haead]),
    if_neg (by simp [hvalid])]
  cases hmm : i.method <;> rw [hmm] at hm hae <;>
    first
      | (simp [method_t.is_sodium_aead] at hm; done)
      | (simp only []
         rw [if_neg (by omega), hae, if_neg (by simp)])

theorem decrypt_aead_sodium_eq (fl : flavor_t) (b : generic_backend_t)
    (sb : sodium_backend_t) (s : cipher_state) (i : cipher_interface_info_t)
    (input : Option (List Nat)) (olen : Option Nat) (ad : Option (List Nat))
    (tag : List Nat) (m : List Nat)
    (h : s.interface_ = some i) (hm : i.method.is_sodium_aead = true)
    (haead : has_flag i.flags EN_CIFT_AEAD = true)
    (hvalid : crypt_args_invalid input olen (get_block_size b s) = false)
    (htl : sodium_ABYTES ≤ tag.length)
    (had : sb.aead_dec i.method (pad_iv b s).libsodium_key (pad_iv b s).iv_ (ad.getD [])
      tag (input.getD []) = (0, m)) :
    decrypt_aead fl b sb s input olen ad tag
      = ⟨.OK, { pad_iv b s with last_errorno_ := 0 }, m, olen⟩ := by
  have hm0 : i.method ≠ .EN_CIMT_INVALID := by
    cases hmm : i.method <;> simp [hmm, method_t.is_sodium_aead] at hm ⊢
  simp only [decrypt_aead, h]
  rw [if_neg (by simp [hm0]),
    if_neg (show ¬ ¬ is_aead s = true by simp [is_aead, h, haead]),
    if_neg (by simp [hvalid])]
  cases hmm : i.method <;> rw [hmm] at hm had <;>
    first
      | (simp [method_t.is_sodium_aead] at hm; done)
      | (simp only []
         rw [if_neg (by omega), had, if_neg (by simp)])

theorem encrypt_aead_evp_eq (b : generic_backend_t) (sb : sodium_backend_t)
    (s : cipher_state) (i : cipher_interface_info_t) (input : Option (List Nat))
    (olen : Option Nat) (ad : Option (List Nat)) (tag_len : Nat)
    (ec : generic_ctx_t) (c tg : List Nat)
    (h : s.interface_ = some i) (hm : i.method = .EN_CIMT_CIPHER)
    (haead : has_flag i.flags EN_CIFT_AEAD = true)
    (hvalid : crypt_args_invalid input olen (get_block_size b s) = false)
    (hec : s.enc_ctx = some ec) (htl : tag_len ≠ 0)
    (hos : b.aead_enc_oneshot
      ⟨ec.key, (if (pad_iv b s).iv_.isEmpty then none else some (pad_iv b s).iv_),
        has_flag i.flags EN_CIFT_VARIABLE_IV_LEN,
        has_flag i.flags EN_CIFT_AEAD_SET_LENGTH_BEFORE,
        (match ad with
         | some a => if a.length ≠ 0 then some a else none
         | none => none),
        has_flag i.flags EN_CIFT_ENCRYPT_NO_PADDING, has_flag i.flags EN_CIFT_NO_FINISH,
        input.getD [], tag_len, none⟩ = .ok (c, tg)) :
    encrypt_aead .evp b sb s input olen ad tag_len
      = ⟨.OK, pad_iv b s, c, some c.length, tg⟩ := by
  simp only [encrypt_aead, h]
  rw [if_neg (by simp [hm]),
    if_neg (show ¬ ¬ is_aead s = true by simp [is_aead, h, haead]),
    if_neg (by simp [hvalid])]
  simp only [hm]
  rw [show (pad_iv b s).enc_ctx = some ec from (pad_iv_enc_ctx b s).trans hec]
  simp only [hos, htl, if_true, ne_eq, not_false_eq_true, if_pos]

theorem decrypt_aead_evp_eq (b : generic_backend_t) (sb : sodium_backend_t)
    (s : cipher_state) (i : cipher_interface_info_t) (input : Option (List Nat))
    (olen : Option Nat) (ad : Option (List Nat)) (tag : List Nat)
    (dc : generic_ctx_t) (m : List Nat)
    (h : s.interface_ = some i) (hm : i.method = .EN_CIMT_CIPHER)
    (haead : has_flag i.flags EN_CIFT_AEAD = true)
    (hvalid : crypt_args_invalid input olen (get_block_size b s) = false)
    (hdc : s.dec_ctx = some dc)
    (hos : b.aead_dec_oneshot
      ⟨dc.key, (if (pad_iv b s).iv_.isEmpty then none else some (pad_iv b s).iv_),
        has_flag i.flags EN_CIFT_VARIABLE_IV_LEN,
        has_flag i.flags EN_CIFT_AEAD_SET_LENGTH_BEFORE,
        (match ad with
         | some a => if a.length ≠ 0 then some a else none
         | none => none),
        has_flag i.flags EN_CIFT_DECRYPT_NO_PADDING, has_flag i.flags EN_CIFT_NO_FINISH,
        input.getD [], tag.length,
        (if tag.length ≠ 0 then some tag else none)⟩ = .ok m) :
    decrypt_aead .evp b sb s input olen ad tag
      = ⟨.OK, pad_iv b s, m, some m.length⟩ := by
  simp only [decrypt_aead, h]
  rw [if_neg (by simp [hm]),
    if_neg (show ¬ ¬ is_aead s = true by simp [is_aead, h, haead]),
    if_neg (by simp [hvalid])]
  simp only [hm]
  rw [show (pad_iv b s).dec_ctx = some dc from (pad_iv_dec_ctx b s).trans hdc]
  simp only [hos]

theorem encrypt_aead_mbt_eq (b : generic_backend_t) (sb : sodium_backend_t)
    (s : cipher_state) (i : cipher_interface_info_t) (input : Option (List Nat))
    (olen : Option Nat) (ad : Option (List Nat)) (tag_len : Nat)
    (ec : generic_ctx_t) (c tg : List Nat)
    (h : s.interface_ = some i) (hm : i.method = .EN_CIMT_CIPHER)
    (haead : has_flag i.flags EN_CIFT_AEAD = true)
    (hvalid : crypt_args_invalid input olen (get_block_size b s) = false)
    (hec : s.enc_ctx = some ec)
    (hcr : b.mbt_auth_encrypt (ec.key.map fun k => (k, ec.bits)) (pad_iv b s).iv_
      (ad.getD []) (input.getD []) tag_len = (0, c, tg)) :
    encrypt_aead .mbedtls b sb s input olen ad tag_len
      = ⟨.OK, { pad_iv b s with last_errorno_ := 0 }, c, some c.length, tg⟩ := by
  simp only [encrypt_aead, h]
  rw [if_neg (by simp [hm]),
    if_neg (show ¬ ¬ is_aead s = true by simp [is_aead, h, haead]),
    if_neg (by simp [hvalid])]
  simp only [hm]
  rw [show (pad_iv b s).enc_ctx = some ec from (pad_iv_enc_ctx b s).trans hec]
  simp only []
  rw [hcr, if_neg (by simp)]

theorem decrypt_aead_mbt_eq (b : generic_backend_t) (sb : sodium_backend_t)
    (s : cipher_state) (i : cipher_interface_info_t) (input : Option (List Nat))
    (olen : Option Nat) (ad : Option (List Nat)) (tag : List Nat)
    (dc : generic_ctx_t) (m : List Nat)
    (h : s.interface_ = some i) (hm : i.method = .EN_CIMT_CIPHER)
    (haead : has_flag i.flags EN_CIFT_AEAD = true)
    (hvalid : crypt_args_invalid input olen (get_block_size b s) = false)
    (hdc : s.dec_ctx = some dc)
    (hcr : b.mbt_auth_decrypt (dc.key.map fun k => (k, dc.bits)) (pad_iv b s).iv_
      (ad.getD []) (input.getD []) tag = (0, m)) :
    decrypt_aead .mbedtls b sb s input olen ad tag
      = ⟨.OK, { pad_iv b s with last_errorno_ := 0 }, m, some m.length⟩ := by
  simp only [decrypt_aead, h]
  rw [if_neg (by simp [hm]),
    if_neg (show ¬ ¬ is_aead s = true by simp [is_aead, h, haead]),
    if_neg (by simp [hvalid])]
  simp only [hm]
  rw [show (pad_iv b s).dec_ctx = some dc from (pad_iv_dec_ctx b s).trans hdc]
  simp only []
  rw [hcr, if_neg (by simp)]

theorem roundtrip_xxtea (fl : flavor_t) (b : generic_backend_t) (sb : sodium_backend_t)
    (s : cipher_state) (i : cipher_interface_info_t) (p : List Nat)
    (h : s.interface_ = some i) (hp : p ≠ [])
    (hm : i.method = .EN_CIMT_XXTEA)
    (haead : has_flag i.flags EN_CIFT_AEAD = false)
    (hx4 : p.length % 4 = 0) (hbytes : ∀ x ∈ p, x < 256) :
    enc_then_dec fl b sb s p = (.OK, .OK, p) := by
  have hvalid1 := crypt_args_valid_exact p (get_block_size b s) hp
  have he := encrypt_xxtea_eq fl b sb s i (some p)
    (some (p.length + get_block_size b s)) h hm haead hvalid1
  have hc_len : (xxtea_encrypt_bytes (pad_iv b s).xxtea_key p).length = p.length := by
    rw [xxtea_encrypt_bytes_length]
    unfold xxtea_pad
    have hz : (4 - p.length % 4) % 4 = 0 := by omega
    simp [hz]
  have hcne : xxtea_encrypt_bytes (pad_iv b s).xxtea_key p ≠ [] := by
    intro hcon
    have := hc_len
    rw [hcon] at this
    exact hp (List.eq_nil_of_length_eq_zero this.symm)
  have h2 : ({ pad_iv b s with last_errorno_ := 0 } : cipher_state).interface_ = some i :=
    (pad_state_interface b s 0).trans h
  have hvalid2 := crypt_args_valid_exact (xxtea_encrypt_bytes (pad_iv b s).xxtea_key p)
    (get_block_size b { pad_iv b s with last_errorno_ := 0 }) hcne
  have hd := decrypt_xxtea_eq fl b sb { pad_iv b s with last_errorno_ := 0 } i
    (some (xxtea_encrypt_bytes (pad_iv b s).xxtea_key p))
    (some ((xxtea_encrypt_bytes (pad_iv b s).xxtea_key p).length +
      get_block_size b { pad_iv b s with last_errorno_ := 0 }))
    h2 hm haead hvalid2
  unfold enc_then_dec
  simp only [Option.getD_some] at he hd
  rw [he]
  simp only []
  rw [hd]
  simp only []
  rw [show (pad_iv b { pad_iv b s with last_errorno_ := 0 }).xxtea_key
      = (pad_iv b s).xxtea_key by rw [pad_iv_stable]]
  rw [xxtea_bytes_roundtrip (pad_iv b s).xxtea_key p hx4 hbytes]

theorem roundtrip_stream (fl : flavor_t) (b : generic_backend_t) (sb : sodium_backend_t)
    (s : cipher_state) (i : cipher_interface_info_t) (p : List Nat)
    (h : s.interface_ = some i) (hp : p ≠ [])
    (hm : i.method = .EN_CIMT_LIBSODIUM_CHACHA20 ∨ i.method = .EN_CIMT_LIBSODIUM_CHACHA20_IETF ∨
      i.method = .EN_CIMT_LIBSODIUM_SALSA20 ∨ i.method = .EN_CIMT_LIBSODIUM_XSALSA20)
    (haead : has_flag i.flags EN_CIFT_AEAD = false)
    (hres : sb.stream_res i.method = 0) :
    enc_then_dec fl b sb s p = (.OK, .OK, p) := by
  have hvalid1 := crypt_args_valid_exact p (get_block_size b s) hp
  have he := encrypt_stream_eq fl b sb s i (some p)
    (some (p.length + get_block_size b s)) h hm haead hvalid1 hres
  set ksf := sb.ks i.method (pad_iv b s).libsodium_key
    ((pad_iv b s).iv_.drop LIBSODIUM_COUNTER_SIZE)
    (libsodium_get_counter (pad_iv b s).iv_) with hksf
  have hc_len : (xor_ks ksf 0 p).length = p.length := xor_ks_length ksf 0 p
  have hcne : xor_ks ksf 0 p ≠ [] := by
    intro hcon
    have := hc_len
    rw [hcon] at this
    exact hp (List.eq_nil_of_length_eq_zero this.symm)
  have h2 : ({ pad_iv b s with last_errorno_ := 0 } : cipher_state).interface_ = some i :=
    (pad_state_interface b s 0).trans h
  have hvalid2 := crypt_args_valid_exact (xor_ks ksf 0 p)
    (get_block_size b { pad_iv b s with last_errorno_ := 0 }) hcne
  have hd := decrypt_stream_eq fl b sb { pad_iv b s with last_errorno_ := 0 } i
    (some (xor_ks ksf 0 p))
    (some ((xor_ks ksf 0 p).length +
      get_block_size b { pad_iv b s with last_errorno_ := 0 }))
    h2 hm haead hvalid2 hres
  unfold enc_then_dec
  simp only [Option.getD_some] at he hd
  rw [he]
  simp only []
  rw [hd]
  simp only []
  rw [show (pad_iv b { pad_iv b s with last_errorno_ := 0 })
      = ({ pad_iv b s with last_errorno_ := 0 } : cipher_state) from pad_iv_stable b s 0]
  rw [show sb.ks i.method ({ pad_iv b s with last_errorno_ := 0 } : cipher_state).libsodium_key
      (({ pad_iv b s with last_errorno_ := 0 } : cipher_state).iv_.drop LIBSODIUM_COUNTER_SIZE)
      (libsodium_get_counter ({ pad_iv b s with last_errorno_ := 0 } : cipher_state).iv_)
      = ksf from rfl]
  rw [xor_ks_involution ksf 0 p]

theorem pad_iv_idem (b : generic_backend_t) (s : cipher_state) :
    pad_iv b (pad_iv b s) = pad_iv b s :=
  pad_iv_stable b s (pad_iv b s).last_errorno_

theorem roundtrip_cipher_evp (b : generic_backend_t) (sb : sodium_backend_t)
    (s : cipher_state) (i : cipher_interface_info_t) (p : List Nat)
    (ec dc : generic_ctx_t) (c : List Nat)
    (h : s.interface_ = some i) (hp : p ≠ [])
    (hm : i.method = .EN_CIMT_CIPHER)
    (haead : has_flag i.flags EN_CIFT_AEAD = false)
    (hec : s.enc_ctx = some ec) (hdc : s.dec_ctx = some dc) (hcne : c ≠ [])
    (heos : b.enc_oneshot
      ⟨ec.key, (if (pad_iv b s).iv_.isEmpty then none else some (pad_iv b s).iv_),
        has_flag i.flags EN_CIFT_ENCRYPT_NO_PADDING, has_flag i.flags EN_CIFT_NO_FINISH,
        p⟩ = .ok c)
    (hdos : b.dec_oneshot
      ⟨dc.key, (if (pad_iv b s).iv_.isEmpty then none else some (pad_iv b s).iv_),
        has_flag i.flags EN_CIFT_DECRYPT_NO_PADDING, has_flag i.flags EN_CIFT_NO_FINISH,
        c⟩ = .ok p) :
    enc_then_dec .evp b sb s p = (.OK, .OK, p) := by
  have hvalid1 := crypt_args_valid_exact p (get_block_size b s) hp
  have he := encrypt_cipher_evp_eq b sb s i (some p)
    (some (p.length + get_block_size b s)) ec c h hm haead hvalid1 hec
    (by simpa using heos)
  have h2 : (pad_iv b s).interface_ = some i := (pad_iv_interface b s).trans h
  have hdc2 : (pad_iv b s).dec_ctx = some dc := (pad_iv_dec_ctx b s).trans hdc
  have hvalid2 := crypt_args_valid_exact c (get_block_size b (pad_iv b s)) hcne
  have hdos2 : b.dec_oneshot
      ⟨dc.key, (if (pad_iv b (pad_iv b s)).iv_.isEmpty then none
          else some (pad_iv b (pad_iv b s)).iv_),
        has_flag i.flags EN_CIFT_DECRYPT_NO_PADDING, has_flag i.flags EN_CIFT_NO_FINISH,
        (some c).getD []⟩ = .ok p := by
    rw [pad_iv_idem]
    simpa using hdos
  have hd := decrypt_cipher_evp_eq b sb (pad_iv b s) i (some c)
    (some (c.length + get_block_size b (pad_iv b s))) dc p h2 hm haead hvalid2 hdc2 hdos2
  unfold enc_then_dec
  simp only [Option.getD_some] at he hd
  rw [he]
  simp only []
  rw [hd]

theorem roundtrip_cipher_mbt (b : generic_backend_t) (sb : sodium_backend_t)
    (s : cipher_state) (i : cipher_interface_info_t) (p : List Nat)
    (ec dc : generic_ctx_t) (c : List Nat)
    (h : s.interface_ = some i) (hp : p ≠ [])
    (hm : i.method = .EN_CIMT_CIPHER)
    (haead : has_flag i.flags EN_CIFT_AEAD = false)
    (hec : s.enc_ctx = some ec) (hdc : s.dec_ctx = some dc) (hcne : c ≠ [])
    (hspr : b.set_padding_res = 0)
    (hecr : b.mbt_crypt true (ec.key.map fun k => (k, ec.bits)) (pad_iv b s).iv_ p = (0, c))
    (hdcr : b.mbt_crypt false (dc.key.map fun k => (k, dc.bits)) (pad_iv b s).iv_ c = (0, p)) :
    enc_then_dec .mbedtls b sb s p = (.OK, .OK, p) := by
  have hvalid1 := crypt_args_valid_exact p (get_block_size b s) hp
  have he := encrypt_cipher_mbt_eq b sb s i (some p)
    (some (p.length + get_block_size b s)) ec c h hm haead hvalid1 hec
    (by simp [hspr]) (by simpa using hecr)
  have h2 : ({ pad_iv b s with last_errorno_ := 0 } : cipher_state).interface_ = some i :=
    (pad_state_interface b s 0).trans h
  have hdc2 : ({ pad_iv b s with last_errorno_ := 0 } : cipher_state).dec_ctx = some dc :=
    (pad_iv_dec_ctx b s).trans hdc
  have hvalid2 := crypt_args_valid_exact c
    (get_block_size b { pad_iv b s with last_errorno_ := 0 }) hcne
  have hdcr2 : b.mbt_crypt false (dc.key.map fun k => (k, dc.bits))
      (pad_iv b { pad_iv b s with last_errorno_ := 0 }).iv_ ((some c).getD []) = (0, p) := by
    rw [pad_iv_stable]
    simpa using hdcr
  have hd := decrypt_cipher_mbt_eq b sb { pad_iv b s with last_errorno_ := 0 } i (some c)
    (some (c.length + get_block_size b { pad_iv b s with last_errorno_ := 0 })) dc p
    h2 hm haead hvalid2 hdc2 (by simp [hspr]) hdcr2
  unfold enc_then_dec
  simp only [Option.getD_some] at he hd
  rw [he]
  simp only []
  rw [hd]

theorem roundtrip_aead_sodium (fl : flavor_t) (b : generic_backend_t)
    (sb : sodium_backend_t) (s : cipher_state) (i : cipher_interface_info_t)
    (p : List Nat) (ad : Option (List Nat)) (c tg : List Nat)
    (h : s.interface_ = some i) (hp : p ≠ [])
    (hm : i.method.is_sodium_aead = true)
    (haead : has_flag i.flags EN_CIFT_AEAD = true)
    (hcne : c ≠ []) (htg : tg.length = 16)
    (hae : sb.aead_enc i.method (pad_iv b s).libsodium_key (pad_iv b s).iv_ (ad.getD [])
      p = (0, c, tg))
    (had : sb.aead_dec i.method (pad_iv b s).libsodium_key (pad_iv b s).iv_ (ad.getD [])
      tg c = (0, p)) :
    aead_enc_then_dec fl b sb s p ad = (.OK, .OK, p) := by
  have hvalid1 := crypt_args_valid_exact p (get_block_size b s) hp
  have he := encrypt_aead_sodium_eq fl b sb s i (some p)
    (some (p.length + get_block_size b s)) ad 16 c tg h hm haead hvalid1
    (by norm_num [sodium_ABYTES]) (by simpa using hae)
  have h2 : ({ pad_iv b s with last_errorno_ := 0 } : cipher_state).interface_ = some i :=
    (pad_state_interface b s 0).trans h
  have hvalid2 := crypt_args_valid_exact c
    (get_block_size b { pad_iv b s with last_errorno_ := 0 }) hcne
  have had2 : sb.aead_dec i.method
      (pad_iv b { pad_iv b s with last_errorno_ := 0 }).libsodium_key
      (pad_iv b { pad_iv b s with last_errorno_ := 0 }).iv_ (ad.getD []) tg
      ((some c).getD []) = (0, p) := by
    rw [pad_iv_stable]
    simpa using had
  have hd := decrypt_aead_sodium_eq fl b sb { pad_iv b s with last_errorno_ := 0 } i (some c)
    (some (c.length + get_block_size b { pad_iv b s with last_errorno_ := 0 })) ad tg p
    h2 hm haead hvalid2 (by rw [htg]; norm_num [sodium_ABYTES]) had2
  unfold aead_enc_then_dec
  simp only [Option.getD_some] at he hd
  rw [he]
  simp only []
  rw [hd]

theorem roundtrip_aead_evp (b : generic_backend_t) (sb : sodium_backend_t)
    (s : cipher_state) (i : cipher_interface_info_t) (p : List Nat)
    (ad : Option (List Nat)) (ec dc : generic_ctx_t) (c tg : List Nat)
    (h : s.interface_ = some i) (hp : p ≠ [])
    (hm : i.method = .EN_CIMT_CIPHER)
    (haead : has_flag i.flags EN_CIFT_AEAD = true)
    (hec : s.enc_ctx = some ec) (hdc : s.dec_ctx = some dc) (hcne : c ≠ [])
    (heos : b.aead_enc_oneshot
      ⟨ec.key, (if (pad_iv b s).iv_.isEmpty then none else some (pad_iv b s).iv_),
        has_flag i.flags EN_CIFT_VARIABLE_IV_LEN,
        has_flag i.flags EN_CIFT_AEAD_SET_LENGTH_BEFORE,
        (match ad with
         | some a => if a.length ≠ 0 then some a else none
         | none => none),
        has_flag i.flags EN_CIFT_ENCRYPT_NO_PADDING, has_flag i.flags EN_CIFT_NO_FINISH,
        p, 16, none⟩ = .ok (c, tg))
    (hdos : b.aead_dec_oneshot
      ⟨dc.key, (if (pad_iv b s).iv_.isEmpty then none else some (pad_iv b s).iv_),
        has_flag i.flags EN_CIFT_VARIABLE_IV_LEN,
        has_flag i.flags EN_CIFT_AEAD_SET_LENGTH_BEFORE,
        (match ad with
         | some a => if a.length ≠ 0 then some a else none
         | none => none),
        has_flag i.flags EN_CIFT_DECRYPT_NO_PADDING, has_flag i.flags EN_CIFT_NO_FINISH,
        c, tg.length, (if tg.length ≠ 0 then some tg else none)⟩ = .ok p) :
    aead_enc_then_dec .evp b sb s p ad = (.OK, .OK, p) := by
  have hvalid1 := crypt_args_valid_exact p (get_block_size b s) hp
  have he := encrypt_aead_evp_eq b sb s i (some p)
    (some (p.length + get_block_size b s)) ad 16 ec c tg h hm haead hvalid1 hec
    (by norm_num) (by cases ad <;> simpa using heos)
  have h2 : (pad_iv b s).interface_ = some i := (pad_iv_interface b s).trans h
  have hdc2 : (pad_iv b s).dec_ctx = some dc := (pad_iv_dec_ctx b s).trans hdc
  have hvalid2 := crypt_args_valid_exact c (get_block_size b (pad_iv b s)) hcne
  have hd := decrypt_aead_evp_eq b sb (pad_iv b s) i (some c)
    (some (c.length + get_block_size b (pad_iv b s))) ad tg dc p h2 hm haead hvalid2 hdc2
    (by rw [pad_iv_idem]; cases ad <;> simpa using hdos)
  unfold aead_enc_then_dec
  simp only [Option.getD_some] at he hd
  rw [he]
  simp only []
  rw [hd]

theorem roundtrip_aead_mbt (b : generic_backend_t) (sb : sodium_backend_t)
    (s : cipher_state) (i : cipher_interface_info_t) (p : List Nat)
    (ad : Option (List Nat)) (ec dc : generic_ctx_t) (c tg : List Nat)
    (h : s.interface_ = some i) (hp : p ≠ [])
    (hm : i.method = .EN_CIMT_CIPHER)
    (haead : has_flag i.flags EN_CIFT_AEAD = true)
    (hec : s.enc_ctx = some ec) (hdc : s.dec_ctx = some dc) (hcne : c ≠ [])
    (hecr : b.mbt_auth_encrypt (ec.key.map fun k => (k, ec.bits)) (pad_iv b s).iv_
      (ad.getD []) p 16 = (0, c, tg))
    (hdcr : b.mbt_auth_decrypt (dc.key.map fun k => (k, dc.bits)) (pad_iv b s).iv_
      (ad.getD []) c tg = (0, p)) :
    aead_enc_then_dec .mbedtls b sb s p ad = (.OK, .OK, p) := by
  have hvalid1 := crypt_args_valid_exact p (get_block_size b s) hp
  have he := encrypt_aead_mbt_eq b sb s i (some p)
    (some (p.length + get_block_size b s)) ad 16 ec c tg h hm haead hvalid1 hec
    (by simpa using hecr)
  have h2 : ({ pad_iv b s with last_errorno_ := 0 } : cipher_state).interface_ = some i :=
    (pad_state_interface b s 0).trans h
  have hdc2 : ({ pad_iv b s with last_errorno_ := 0 } : cipher_state).dec_ctx = some dc :=
    (pad_iv_dec_ctx b s).trans hdc
  have hvalid2 := crypt_args_valid_exact c
    (get_block_size b { pad_iv b s with last_errorno_ := 0 }) hcne
  have hdcr2 : b.mbt_auth_decrypt (dc.key.map fun k => (k, dc.bits))
      (pad_iv b { pad_iv b s with last_errorno_ := 0 }).iv_
      (ad.getD []) ((some c).getD []) tg = (0, p) := by
    rw [pad_iv_stable]
    simpa using hdcr
  have hd := decrypt_aead_mbt_eq b sb { pad_iv b s with last_errorno_ := 0 } i (some c)
    (some (c.length + get_block_size b { pad_iv b s with last_errorno_ := 0 })) ad tg dc p
    h2 hm haead hvalid2 hdc2 hdcr2
  unfold aead_enc_then_dec
  simp only [Option.getD_some] at he hd
  rw [he]
  simp only []
  rw [hd]

/-- C1 counterexample: the round trip fails for the empty byte string,
contrary to the claim's "including the empty string" — both `encrypt` and
`encrypt_aead` reject a zero-length input with `INVALID_PARAM` (the
`ilen <= 0` argument guard), so decrypt-of-encrypt can never return the
empty string. -/
theorem cipher_roundtrip_counterexample :
    (encrypt .evp triv_gb triv_sb s_chacha20sod (some []) (some 16)).code = .INVALID_PARAM ∧
    (encrypt .evp triv_gb triv_sb s_xxtea (some []) (some 4)).code = .INVALID_PARAM ∧
    (encrypt_aead .evp triv_gb triv_sb s_gcm (some []) (some 20) (some [1]) 16).code
      = .INVALID_PARAM := by
  decide

/-- C1 (amended): decrypting the encryption of a NON-empty byte string `p`
yields `p` again, per dispatch path: XXTEA sessions on 4-byte-aligned inputs;
the four live libsodium stream methods (chacha20, chacha20-ietf, salsa20,
xsalsa20 — the xchacha20 stream dispatch is dead code); EVP and mbedTLS
generic ciphers whose back-end one-shots are mutually inverse; and libsodium,
EVP and mbedTLS AEAD paths with the tag produced by encryption. The empty
string is excluded: see `cipher_roundtrip_counterexample`. -/
theorem cipher_roundtrip :
    (∀ (fl : flavor_t) (b : generic_backend_t) (sb : sodium_backend_t)
      (s : cipher_state) (i : cipher_interface_info_t) (p : List Nat),
      s.interface_ = some i → p ≠ [] → i.method = .EN_CIMT_XXTEA →
      has_flag i.flags EN_CIFT_AEAD = false → p.length % 4 = 0 →
      (∀ x ∈ p, x < 256) →
      enc_then_dec fl b sb s p = (.OK, .OK, p)) ∧
    (∀ (fl : flavor_t) (b : generic_backend_t) (sb : sodium_backend_t)
      (s : cipher_state) (i : cipher_interface_info_t) (p : List Nat),
      s.interface_ = some i → p ≠ [] →
      (i.method = .EN_CIMT_LIBSODIUM_CHACHA20 ∨
        i.method = .EN_CIMT_LIBSODIUM_CHACHA20_IETF ∨
        i.method = .EN_CIMT_LIBSODIUM_SALSA20 ∨
        i.method = .EN_CIMT_LIBSODIUM_XSALSA20) →
      has_flag i.flags EN_CIFT_AEAD = false → sb.stream_res i.method = 0 →
      enc_then_dec fl b sb s p = (.OK, .OK, p)) ∧
    (∀ (b : generic_backend_t) (sb : sodium_backend_t)
      (s : cipher_state) (i : cipher_interface_info_t) (p : List Nat)
      (ec dc : generic_ctx_t) (c : List Nat),
      s.interface_ = some i → p ≠ [] → i.method = .EN_CIMT_CIPHER →
      has_flag i.flags EN_CIFT_AEAD = false →
      s.enc_ctx = some ec → s.dec_ctx = some dc → c ≠ [] →
      b.enc_oneshot
        ⟨ec.key, (if (pad_iv b s).iv_.isEmpty then none else some (pad_iv b s).iv_),
          has_flag i.flags EN_CIFT_ENCRYPT_NO_PADDING, has_flag i.flags EN_CIFT_NO_FINISH,
          p⟩ = .ok c →
      b.dec_oneshot
        ⟨dc.key, (if (pad_iv b s).iv_.isEmpty then none else some (pad_iv b s).iv_),
          has_flag i.flags EN_CIFT_DECRYPT_NO_PADDING, has_flag i.flags EN_CIFT_NO_FINISH,
          c⟩ = .ok p →
      enc_then_dec .evp b sb s p = (.OK, .OK, p)) ∧
    (∀ (b : generic_backend_t) (sb : sodium_backend_t)
      (s : cipher_state) (i : cipher_interface_info_t) (p : List Nat)
      (ec dc : generic_ctx_t) (c : List Nat),
      s.interface_ = some i → p ≠ [] → i.method = .EN_CIMT_CIPHER →
      has_flag i.flags EN_CIFT_AEAD = false →
      s.enc_ctx = some ec → s.dec_ctx = some dc → c ≠ [] →
      b.set_padding_res = 0 →
      b.mbt_crypt true (ec.key.map fun k => (k, ec.bits)) (pad_iv b s).iv_ p = (0, c) →
      b.mbt_crypt false (dc.key.map fun k => (k, dc.bits)) (pad_iv b s).iv_ c = (0, p) →
      enc_then_dec .mbedtls b sb s p = (.OK, .OK, p)) ∧
    (∀ (fl : flavor_t) (b : generic_backend_t) (sb : sodium_backend_t)
      (s : cipher_state) (i : cipher_interface_info_t)
      (p : List Nat) (ad : Option (List Nat)) (c tg : List Nat),
      s.interface_ = some i → p ≠ [] →
      i.method.is_sodium_aead = true → has_flag i.flags EN_CIFT_AEAD = true →
      c ≠ [] → tg.length = 16 →
      sb.aead_enc i.method (pad_iv b s).libsodium_key (pad_iv b s).iv_ (ad.getD [])
        p = (0, c, tg) →
      sb.aead_dec i.method (pad_iv b s).libsodium_key (pad_iv b s).iv_ (ad.getD [])
        tg c = (0, p) →
      aead_enc_then_dec fl b sb s p ad = (.OK, .OK, p)) ∧
    (∀ (b : generic_backend_t) (sb : sodium_backend_t)
      (s : cipher_state) (i : cipher_interface_info_t) (p : List Nat)
      (ad : Option (List Nat)) (ec dc : generic_ctx_t) (c tg : List Nat),
      s.interface_ = some i → p ≠ [] → i.method = .EN_CIMT_CIPHER →
      has_flag i.flags EN_CIFT_AEAD = true →
      s.enc_ctx = some ec → s.dec_ctx = some dc → c ≠ [] →
      b.aead_enc_oneshot
        ⟨ec.key, (if (pad_iv b s).iv_.isEmpty then none else some (pad_iv b s).iv_),
          has_flag i.flags EN_CIFT_VARIABLE_IV_LEN,
          has_flag i.flags EN_CIFT_AEAD_SET_LENGTH_BEFORE,
          (match ad with
           | some a => if a.length ≠ 0 then some a else none
           | none => none),
          has_flag i.flags EN_CIFT_ENCRYPT_NO_PADDING, has_flag i.flags EN_CIFT_NO_FINISH,
          p, 16, none⟩ = .ok (c, tg) →
      b.aead_dec_oneshot
        ⟨dc.key, (if (pad_iv b s).iv_.isEmpty then none else some (pad_iv b s).iv_),
          has_flag i.flags EN_CIFT_VARIABLE_IV_LEN,
          has_flag i.flags EN_CIFT_AEAD_SET_LENGTH_BEFORE,
          (match ad with
           | some a => if a.length ≠ 0 then some a else none
           | none => none),
          has_flag i.flags EN_CIFT_DECRYPT_NO_PADDING, has_flag i.flags EN_CIFT_NO_FINISH,
          c, tg.length, (if tg.length ≠ 0 then some tg else none)⟩ = .ok p →
      aead_enc_then_dec .evp b sb s p ad = (.OK, .OK, p)) ∧
    (∀ (b : generic_backend_t) (sb : sodium_backend_t)
      (s : cipher_state) (i : cipher_interface_info_t) (p : List Nat)
      (ad : Option (List Nat)) (ec dc : generic_ctx_t) (c tg : List Nat),
      s.interface_ = some i → p ≠ [] → i.method = .EN_CIMT_CIPHER →
      has_flag i.flags EN_CIFT_AEAD = true →
      s.enc_ctx = some ec → s.dec_ctx = some dc → c ≠ [] →
      b.mbt_auth_encrypt (ec.key.map fun k => (k, ec.bits)) (pad_iv b s).iv_
        (ad.getD []) p 16 = (0, c, tg) →
      b.mbt_auth_decrypt (dc.key.map fun k => (k, dc.bits)) (pad_iv b s).iv_
        (ad.getD []) c tg = (0, p) →
      aead_enc_then_dec .mbedtls b sb s p ad = (.OK, .OK, p)) := by
  refine ⟨?_, ?_, ?_, ?_, ?_, ?_, ?_⟩
  · exact roundtrip_xxtea
  · exact roundtrip_stream
  · exact roundtrip_cipher_evp
  · exact roundtrip_cipher_mbt
  · exact roundtrip_aead_sodium
  · intro b sb s i p ad ec dc c tg h hp hm haead hec hdc hcne heos hdos
    exact roundtrip_aead_evp b sb s i p ad ec dc c tg h hp hm haead hec hdc hcne
      (by cases ad <;> simpa using heos) (by cases ad <;> simpa using hdos)
  · exact roundtrip_aead_mbt

/-- Witness for C1: the sodium chacha20 stream round trip at a concrete
session, key, iv and input. -/
theorem cipher_roundtrip_witness :
    enc_then_dec .evp triv_gb triv_sb s_chacha20sod [1, 2, 3] = (.OK, .OK, [1, 2, 3]) :=
  cipher_roundtrip.2.1 .evp triv_gb triv_sb s_chacha20sod
    ⟨"chacha20", .EN_CIMT_LIBSODIUM_CHACHA20, none, "CHACHA20", EN_CIFT_NONE⟩
    [1, 2, 3] (by decide) (by decide) (Or.inl rfl) (by decide) rfl

end AtframeCrypto
